import Mathlib

/-!
Verification development for the 3.5" RPi display driver
(`ili9486l_driver.c`, `efficient_rpi_display.c`, `xpt2046_touch.c`).

The C sources are shallowly embedded: the SPI bus is modelled as a trace of
command/data events together with a success oracle (one Bool per transfer);
pixel buffers are functions from flat index to 16-bit value; C `int`
arithmetic is `Int`, with truncating division written `Int.tdiv` and
explicit wrap-around where the C code stores into a narrower type.
GPIO line toggles and timing/performance counters are not observable in any
verified property and are omitted.
-/

set_option maxRecDepth 10000

namespace RpiDisplay

/-! ## Constants (efficient_rpi_display.h, ili9486l_driver.h) -/

def DISPLAY_WIDTH : Int := 320
def DISPLAY_HEIGHT : Int := 480

def COLOR_BLACK : Nat := 0x0000
def COLOR_RED : Nat := 0xF800

def ILI9486L_CASET : Nat := 0x2A
def ILI9486L_PASET : Nat := 0x2B
def ILI9486L_RAMWR : Nat := 0x2C

def RPI_DISPLAY_OK : Int := 0
def RPI_DISPLAY_ERROR_SPI : Int := -2
def RPI_DISPLAY_ERROR_INVALID : Int := -5

/-- C `(uint32_t) v`: conversion of an `int` expression to `uint32_t`, as it
happens in comparisons such as `x + width > ctx->width` where `ctx->width`
is `uint32_t`. -/
def cuint32 (v : Int) : Int := v % 4294967296

/-- C store into an `int16_t` lvalue (two's-complement wrap-around). -/
def int16_of (v : Int) : Int := (v + 32768) % 65536 - 32768

/-! ## SPI bus model

`spi_transfer` either succeeds (recording the bytes that went over the wire)
or fails, per the oracle `okAt` indexed by the transfer counter.  The
data/command pin distinguishes the two kinds of transfer, so the wire trace
is a list of `cmd`/`data` events. -/

inductive BusEvent where
  | cmd (b : Nat)
  | data (bytes : List Nat)
  deriving DecidableEq

structure SpiBus where
  okAt : Nat → Bool
  count : Nat
  trace : List BusEvent

/-- A bus on which every transfer succeeds. -/
def spiOk : SpiBus := ⟨fun _ => true, 0, []⟩

/-- A bus on which every transfer fails. -/
def spiFail : SpiBus := ⟨fun _ => false, 0, []⟩

/-- `spi_transfer`: returns 0 on success, -1 on failure. -/
def spi_transfer (bus : SpiBus) (ev : BusEvent) : Int × SpiBus :=
  if bus.okAt bus.count then
    (0, ⟨bus.okAt, bus.count + 1, bus.trace ++ [ev]⟩)
  else
    (-1, ⟨bus.okAt, bus.count + 1, bus.trace⟩)

/-- `ili9486l_write_command`: DC low, send one command byte. -/
def ili9486l_write_command (bus : SpiBus) (command : Nat) : Int × SpiBus :=
  spi_transfer bus (.cmd command)

/-- `ili9486l_write_data`: DC high, send data bytes. -/
def ili9486l_write_data (bus : SpiBus) (bytes : List Nat) : Int × SpiBus :=
  spi_transfer bus (.data bytes)

/-- static `write_command_data`. -/
def write_command_data (bus : SpiBus) (cmd : Nat) (data : List Nat) : Int × SpiBus :=
  let (r, bus) := ili9486l_write_command bus cmd
  if r < 0 then (-1, bus)
  else if data ≠ [] then
    let (r2, bus) := ili9486l_write_data bus data
    if r2 < 0 then (-1, bus) else (0, bus)
  else (0, bus)

/-! ## Panel controller context (ili9486l_ctx_t) -/

structure Ili9486lCtx where
  width : Int
  height : Int
  double_buffer_enabled : Bool
  framebuffer : Nat → Nat
  backbuffer : Nat → Nat
  dirty_rect_enabled : Bool
  dirty_x_min : Int
  dirty_y_min : Int
  dirty_x_max : Int
  dirty_y_max : Int

/-- `mark_dirty_rect`. -/
def mark_dirty_rect (ctx : Ili9486lCtx) (x y width height : Int) : Ili9486lCtx :=
  if ¬ ctx.dirty_rect_enabled then ctx
  else
    let x_max := x + width - 1
    let y_max := y + height - 1
    if ctx.dirty_x_min = -1 then
      { ctx with dirty_x_min := x, dirty_y_min := y, dirty_x_max := x_max, dirty_y_max := y_max }
    else
      { ctx with
        dirty_x_min := if x < ctx.dirty_x_min then x else ctx.dirty_x_min,
        dirty_y_min := if y < ctx.dirty_y_min then y else ctx.dirty_y_min,
        dirty_x_max := if x_max > ctx.dirty_x_max then x_max else ctx.dirty_x_max,
        dirty_y_max := if y_max > ctx.dirty_y_max then y_max else ctx.dirty_y_max }

/-- `clear_dirty_rect`. -/
def clear_dirty_rect (ctx : Ili9486lCtx) : Ili9486lCtx :=
  { ctx with dirty_x_min := -1, dirty_y_min := -1, dirty_x_max := -1, dirty_y_max := -1 }

/-- `has_dirty_rect`. -/
def has_dirty_rect (ctx : Ili9486lCtx) : Bool :=
  ctx.dirty_x_min != -1

/-- High byte of a window coordinate: `(v >> 8) & 0xFF` (coordinates are
non-negative on every reachable call). -/
def byteHi (v : Int) : Nat := (v.toNat >>> 8) &&& 0xFF

/-- Low byte of a window coordinate: `v & 0xFF`. -/
def byteLo (v : Int) : Nat := v.toNat &&& 0xFF

/-- `ili9486l_set_window`: CASET, PASET, RAMWR. -/
def ili9486l_set_window (bus : SpiBus) (x y width height : Int) : Int × SpiBus :=
  let d1 := [byteHi x, byteLo x, byteHi (x + width - 1), byteLo (x + width - 1)]
  let (r, bus) := write_command_data bus ILI9486L_CASET d1
  if r < 0 then (-1, bus)
  else
    let d2 := [byteHi y, byteLo y, byteHi (y + height - 1), byteLo (y + height - 1)]
    let (r2, bus) := write_command_data bus ILI9486L_PASET d2
    if r2 < 0 then (-1, bus)
    else
      let (r3, bus) := ili9486l_write_command bus ILI9486L_RAMWR
      if r3 < 0 then (-1, bus) else (0, bus)

/-- The `tx_buffer` fill loop of `ili9486l_refresh_rect`: the rectangle's
pixels, row-major, each 16-bit value split high byte first. -/
def rectBytes (src : Nat → Nat) (bufW x y width height : Int) : List Nat :=
  (List.range height.toNat).flatMap fun (row : Nat) =>
    (List.range width.toNat).flatMap fun (col : Nat) =>
      let pixel := src ((y + (row : Int)) * bufW + (x + (col : Int))).toNat
      [(pixel >>> 8) &&& 0xFF, pixel &&& 0xFF]

/-- `ili9486l_refresh_rect`. -/
def ili9486l_refresh_rect (ctx : Ili9486lCtx) (bus : SpiBus) (x y width height : Int) :
    Int × SpiBus :=
  if x < 0 ∨ y < 0 ∨ cuint32 (x + width) > ctx.width ∨ cuint32 (y + height) > ctx.height then
    (RPI_DISPLAY_ERROR_INVALID, bus)
  else
    let (r, bus) := ili9486l_set_window bus x y width height
    if r < 0 then (RPI_DISPLAY_ERROR_SPI, bus)
    else
      let source_buffer := if ctx.double_buffer_enabled then ctx.backbuffer else ctx.framebuffer
      let txBytes := rectBytes source_buffer ctx.width x y width height
      let (r2, bus) := ili9486l_write_data bus txBytes
      if r2 < 0 then (RPI_DISPLAY_ERROR_SPI, bus) else (RPI_DISPLAY_OK, bus)

/-- `ili9486l_refresh_display`. -/
def ili9486l_refresh_display (ctx : Ili9486lCtx) (bus : SpiBus) :
    Int × Ili9486lCtx × SpiBus :=
  if has_dirty_rect ctx then
    let x := ctx.dirty_x_min
    let y := ctx.dirty_y_min
    let width := ctx.dirty_x_max - ctx.dirty_x_min + 1
    let height := ctx.dirty_y_max - ctx.dirty_y_min + 1
    let (result, bus) := ili9486l_refresh_rect ctx bus x y width height
    (result, clear_dirty_rect ctx, bus)
  else
    let (r, bus) := ili9486l_refresh_rect ctx bus 0 0 ctx.width ctx.height
    (r, ctx, bus)

/-- State after `ili9486l_init` + default-rotation configure (double-buffer
flag per config, freshly allocated buffers, dirty tracking enabled and
cleared). -/
def initCtx (dbe : Bool) (fb bb : Nat → Nat) : Ili9486lCtx :=
  { width := DISPLAY_WIDTH, height := DISPLAY_HEIGHT,
    double_buffer_enabled := dbe,
    framebuffer := fb, backbuffer := bb,
    dirty_rect_enabled := true,
    dirty_x_min := -1, dirty_y_min := -1, dirty_x_max := -1, dirty_y_max := -1 }

/-! ## Display facade (efficient_rpi_display.c)

Drawing calls write through `double_buffer_enabled ? backbuffer : framebuffer`. -/

def activeBuffer (ctx : Ili9486lCtx) : Nat → Nat :=
  if ctx.double_buffer_enabled then ctx.backbuffer else ctx.framebuffer

def setActiveBuffer (ctx : Ili9486lCtx) (buf : Nat → Nat) : Ili9486lCtx :=
  if ctx.double_buffer_enabled then { ctx with backbuffer := buf }
  else { ctx with framebuffer := buf }

/-- `rpi_display_clear` (the uint16_t parameter truncates the color). -/
def rpi_display_clear (ctx : Ili9486lCtx) (color : Nat) : Int × Ili9486lCtx :=
  let color := color % 65536
  let pixel_count := (ctx.width * ctx.height).toNat
  let buffer := (List.range pixel_count).foldl
    (fun b i => Function.update b i color) (activeBuffer ctx)
  let ctx := setActiveBuffer ctx buffer
  let ctx := mark_dirty_rect ctx 0 0 ctx.width ctx.height
  (RPI_DISPLAY_OK, ctx)

/-- `rpi_display_set_pixel`. -/
def rpi_display_set_pixel (ctx : Ili9486lCtx) (x y : Int) (color : Nat) : Int × Ili9486lCtx :=
  if x < 0 ∨ x ≥ ctx.width ∨ y < 0 ∨ y ≥ ctx.height then (RPI_DISPLAY_ERROR_INVALID, ctx)
  else
    let color := color % 65536
    let buffer := Function.update (activeBuffer ctx) ((y * ctx.width + x).toNat) color
    let ctx := setActiveBuffer ctx buffer
    let ctx := mark_dirty_rect ctx x y 1 1
    (RPI_DISPLAY_OK, ctx)

/-- `rpi_display_get_pixel`. -/
def rpi_display_get_pixel (ctx : Ili9486lCtx) (x y : Int) : Nat :=
  if x < 0 ∨ x ≥ ctx.width ∨ y < 0 ∨ y ≥ ctx.height then 0
  else activeBuffer ctx ((y * ctx.width + x).toNat)

/-- The four clipping steps shared by `rpi_display_fill_rect` (and, for the
destination rectangle, `rpi_display_copy_buffer`).  The right/bottom
comparisons `x + width > ctx->display.width` promote the `int` sum to
`uint32_t` (the type of `width`/`height` in the context struct), so a
negative sum compares as a huge unsigned value and re-expands the
rectangle to `W - x` (resp. `H - y`). -/
def clipRect (W H x y width height : Int) : Int × Int × Int × Int :=
  let (x, width) := if x < 0 then ((0 : Int), width + x) else (x, width)
  let (y, height) := if y < 0 then ((0 : Int), height + y) else (y, height)
  let width := if cuint32 (x + width) > W then W - x else width
  let height := if cuint32 (y + height) > H then H - y else height
  (x, y, width, height)

/-- `rpi_display_fill_rect`. -/
def rpi_display_fill_rect (ctx : Ili9486lCtx) (x y width height : Int) (color : Nat) :
    Int × Ili9486lCtx :=
  let color := color % 65536
  let (x, y, width, height) := clipRect ctx.width ctx.height x y width height
  if width ≤ 0 ∨ height ≤ 0 then (RPI_DISPLAY_OK, ctx)
  else
    let buffer := (List.range height.toNat).foldl
      (fun b (row : Nat) => (List.range width.toNat).foldl
        (fun b (col : Nat) =>
          Function.update b ((y + (row : Int)) * ctx.width + (x + (col : Int))).toNat color) b)
      (activeBuffer ctx)
    let ctx := setActiveBuffer ctx buffer
    let ctx := mark_dirty_rect ctx x y width height
    (RPI_DISPLAY_OK, ctx)

/-- Plot a list of points through `rpi_display_set_pixel`. -/
def drawPoints (ctx : Ili9486lCtx) (pts : List (Int × Int)) (color : Nat) : Ili9486lCtx :=
  pts.foldl (fun c p => (rpi_display_set_pixel c p.1 p.2 color).2) ctx

/-- The Bresenham loop of `rpi_display_draw_line`, as the sequence of plotted
points.  Plotting never feeds back into the stepping, so the loop is the
plot of this list.  The fuel `dx + dy + 1` is an upper bound on the
iteration count (each iteration before reaching the endpoint moves `x`
and/or `y` one step). -/
def lineSteps : Nat → Int → Int → Int → Int → Int → Int → Int → Int → Int → List (Int × Int)
  | 0, _, _, _, _, _, _, _, _, _ => []
  | fuel + 1, x, y, x1, y1, dx, dy, sx, sy, err =>
    (x, y) ::
      (if x = x1 ∧ y = y1 then []
       else
         let e2 := 2 * err
         let err2 := if e2 > -dy then err - dy else err
         let x2 := if e2 > -dy then x + sx else x
         let err3 := if e2 < dx then err2 + dx else err2
         let y2 := if e2 < dx then y + sy else y
         lineSteps fuel x2 y2 x1 y1 dx dy sx sy err3)

def linePoints (x0 y0 x1 y1 : Int) : List (Int × Int) :=
  let dx := |x1 - x0|
  let dy := |y1 - y0|
  let sx : Int := if x0 < x1 then 1 else -1
  let sy : Int := if y0 < y1 then 1 else -1
  lineSteps (dx + dy + 1).toNat x0 y0 x1 y1 dx dy sx sy (dx - dy)

/-- `rpi_display_draw_line`. -/
def rpi_display_draw_line (ctx : Ili9486lCtx) (x0 y0 x1 y1 : Int) (color : Nat) :
    Int × Ili9486lCtx :=
  (RPI_DISPLAY_OK, drawPoints ctx (linePoints x0 y0 x1 y1) color)

/-- The midpoint-circle loop of `rpi_display_draw_circle`, as the sequence of
plotted points.  `xx` strictly increases, and the loop runs while
`yy ≥ xx` with `yy ≤ radius`, so `radius + 2` fuel always suffices. -/
def circleSteps : Nat → Int → Int → Int → Int → Int → List (Int × Int)
  | 0, _, _, _, _, _ => []
  | fuel + 1, x, y, xx, yy, d =>
    if yy ≥ xx then
      [(x + xx, y + yy), (x - xx, y + yy), (x + xx, y - yy), (x - xx, y - yy),
       (x + yy, y + xx), (x - yy, y + xx), (x + yy, y - xx), (x - yy, y - xx)] ++
      (let xx2 := xx + 1
       if d > 0 then circleSteps fuel x y xx2 (yy - 1) (d + 4 * (xx2 - (yy - 1)) + 10)
       else circleSteps fuel x y xx2 yy (d + 4 * xx2 + 6))
    else []

def circlePoints (x y radius : Int) : List (Int × Int) :=
  circleSteps (radius + 2).toNat x y 0 radius (3 - 2 * radius)

/-- `rpi_display_draw_circle`. -/
def rpi_display_draw_circle (ctx : Ili9486lCtx) (x y radius : Int) (color : Nat) :
    Int × Ili9486lCtx :=
  (RPI_DISPLAY_OK, drawPoints ctx (circlePoints x y radius) color)

/-- The 8×8 font table `font_8x8` (partial initializer: all other rows are
zero-filled). -/
def font_8x8 : Nat → List Nat
  | 32 => [0x00, 0x00, 0x00, 0x00, 0x00, 0x00, 0x00, 0x00]
  | 33 => [0x18, 0x3C, 0x3C, 0x18, 0x18, 0x00, 0x18, 0x00]
  | 34 => [0x36, 0x36, 0x00, 0x00, 0x00, 0x00, 0x00, 0x00]
  | 35 => [0x36, 0x36, 0x7F, 0x36, 0x7F, 0x36, 0x36, 0x00]
  | 36 => [0x0C, 0x3E, 0x03, 0x1E, 0x30, 0x1F, 0x0C, 0x00]
  | 37 => [0x00, 0x63, 0x33, 0x18, 0x0C, 0x66, 0x63, 0x00]
  | 38 => [0x1C, 0x36, 0x1C, 0x6E, 0x3B, 0x33, 0x6E, 0x00]
  | 39 => [0x06, 0x06, 0x03, 0x00, 0x00, 0x00, 0x00, 0x00]
  | 40 => [0x18, 0x0C, 0x06, 0x06, 0x06, 0x0C, 0x18, 0x00]
  | 41 => [0x06, 0x0C, 0x18, 0x18, 0x18, 0x0C, 0x06, 0x00]
  | 42 => [0x00, 0x66, 0x3C, 0xFF, 0x3C, 0x66, 0x00, 0x00]
  | 43 => [0x00, 0x0C, 0x0C, 0x3F, 0x0C, 0x0C, 0x00, 0x00]
  | 44 => [0x00, 0x00, 0x00, 0x00, 0x00, 0x0C, 0x06, 0x00]
  | 45 => [0x00, 0x00, 0x00, 0x3F, 0x00, 0x00, 0x00, 0x00]
  | 46 => [0x00, 0x00, 0x00, 0x00, 0x00, 0x0C, 0x0C, 0x00]
  | 47 => [0x60, 0x30, 0x18, 0x0C, 0x06, 0x03, 0x01, 0x00]
  | 48 => [0x3E, 0x63, 0x73, 0x7B, 0x6F, 0x67, 0x3E, 0x00]
  | 49 => [0x0C, 0x0E, 0x0C, 0x0C, 0x0C, 0x0C, 0x3F, 0x00]
  | 50 => [0x1E, 0x33, 0x30, 0x1C, 0x06, 0x33, 0x3F, 0x00]
  | 51 => [0x1E, 0x33, 0x30, 0x1C, 0x30, 0x33, 0x1E, 0x00]
  | 52 => [0x38, 0x3C, 0x36, 0x33, 0x7F, 0x30, 0x78, 0x00]
  | 53 => [0x3F, 0x03, 0x1F, 0x30, 0x30, 0x33, 0x1E, 0x00]
  | 54 => [0x1C, 0x06, 0x03, 0x1F, 0x33, 0x33, 0x1E, 0x00]
  | 55 => [0x3F, 0x33, 0x30, 0x18, 0x0C, 0x0C, 0x0C, 0x00]
  | 56 => [0x1E, 0x33, 0x33, 0x1E, 0x33, 0x33, 0x1E, 0x00]
  | 57 => [0x1E, 0x33, 0x33, 0x3E, 0x30, 0x18, 0x0E, 0x00]
  | 58 => [0x00, 0x0C, 0x0C, 0x00, 0x00, 0x0C, 0x0C, 0x00]
  | 59 => [0x00, 0x0C, 0x0C, 0x00, 0x00, 0x0C, 0x06, 0x00]
  | 60 => [0x18, 0x0C, 0x06, 0x03, 0x06, 0x0C, 0x18, 0x00]
  | 61 => [0x00, 0x00, 0x3F, 0x00, 0x00, 0x3F, 0x00, 0x00]
  | 62 => [0x06, 0x0C, 0x18, 0x30, 0x18, 0x0C, 0x06, 0x00]
  | 63 => [0x1E, 0x33, 0x30, 0x18, 0x0C, 0x00, 0x0C, 0x00]
  | 64 => [0x3E, 0x63, 0x7B, 0x7B, 0x7B, 0x03, 0x1E, 0x00]
  | 65 => [0x0C, 0x1E, 0x33, 0x33, 0x3F, 0x33, 0x33, 0x00]
  | 66 => [0x3F, 0x66, 0x66, 0x3E, 0x66, 0x66, 0x3F, 0x00]
  | 67 => [0x3C, 0x66, 0x03, 0x03, 0x03, 0x66, 0x3C, 0x00]
  | 68 => [0x1F, 0x36, 0x66, 0x66, 0x66, 0x36, 0x1F, 0x00]
  | 69 => [0x7F, 0x46, 0x16, 0x1E, 0x16, 0x46, 0x7F, 0x00]
  | 70 => [0x7F, 0x46, 0x16, 0x1E, 0x16, 0x06, 0x0F, 0x00]
  | 71 => [0x3C, 0x66, 0x03, 0x03, 0x73, 0x66, 0x7C, 0x00]
  | 72 => [0x33, 0x33, 0x33, 0x3F, 0x33, 0x33, 0x33, 0x00]
  | 73 => [0x1E, 0x0C, 0x0C, 0x0C, 0x0C, 0x0C, 0x1E, 0x00]
  | 74 => [0x78, 0x30, 0x30, 0x30, 0x33, 0x33, 0x1E, 0x00]
  | 75 => [0x67, 0x66, 0x36, 0x1E, 0x36, 0x66, 0x67, 0x00]
  | 76 => [0x0F, 0x06, 0x06, 0x06, 0x46, 0x66, 0x7F, 0x00]
  | 77 => [0x63, 0x77, 0x7F, 0x7F, 0x6B, 0x63, 0x63, 0x00]
  | 78 => [0x63, 0x67, 0x6F, 0x7B, 0x73, 0x63, 0x63, 0x00]
  | 79 => [0x1C, 0x36, 0x63, 0x63, 0x63, 0x36, 0x1C, 0x00]
  | 80 => [0x3F, 0x66, 0x66, 0x3E, 0x06, 0x06, 0x0F, 0x00]
  | 81 => [0x1E, 0x33, 0x33, 0x33, 0x3B, 0x1E, 0x38, 0x00]
  | 82 => [0x3F, 0x66, 0x66, 0x3E, 0x36, 0x66, 0x67, 0x00]
  | 83 => [0x1E, 0x33, 0x07, 0x0E, 0x38, 0x33, 0x1E, 0x00]
  | 84 => [0x3F, 0x2D, 0x0C, 0x0C, 0x0C, 0x0C, 0x1E, 0x00]
  | 85 => [0x33, 0x33, 0x33, 0x33, 0x33, 0x33, 0x3F, 0x00]
  | 86 => [0x33, 0x33, 0x33, 0x33, 0x33, 0x1E, 0x0C, 0x00]
  | 87 => [0x63, 0x63, 0x63, 0x6B, 0x7F, 0x77, 0x63, 0x00]
  | 88 => [0x63, 0x63, 0x36, 0x1C, 0x1C, 0x36, 0x63, 0x00]
  | 89 => [0x33, 0x33, 0x33, 0x1E, 0x0C, 0x0C, 0x1E, 0x00]
  | 90 => [0x7F, 0x63, 0x31, 0x18, 0x4C, 0x66, 0x7F, 0x00]
  | _ => [0x00, 0x00, 0x00, 0x00, 0x00, 0x00, 0x00, 0x00]

/-- static `draw_character`: the points whose glyph bit is set (unsupported
code points fall back to the blank glyph at 32). -/
def charPoints (x y : Int) (c : Nat) : List (Int × Int) :=
  let c := if c < 32 ∨ c > 127 then 32 else c
  (List.range 8).flatMap fun (row : Nat) =>
    (List.range 8).flatMap fun (col : Nat) =>
      if (font_8x8 c).getD row 0 &&& (0x80 >>> col) ≠ 0 then
        [(x + (col : Int), y + (row : Int))]
      else []

/-- The character-advance loop of `rpi_display_draw_text`, as the sequence of
plotted points (`\n` = code 10 resets x and advances y by 8). -/
def textSteps (startX : Int) : Int → Int → List Nat → List (Int × Int)
  | _, _, [] => []
  | x, y, c :: rest =>
    if c = 10 then textSteps startX startX (y + 8) rest
    else charPoints x y c ++ textSteps startX (x + 8) y rest

/-- `rpi_display_draw_text`. -/
def rpi_display_draw_text (ctx : Ili9486lCtx) (x y : Int) (text : List Nat) (color : Nat) :
    Int × Ili9486lCtx :=
  (RPI_DISPLAY_OK, drawPoints ctx (textSteps x x y text) color)

/-- `rpi_display_copy_buffer` (with the source-pointer offsetting of the
negative-origin clip preserved: `off` counts elements the source pointer
was advanced by). -/
def rpi_display_copy_buffer (ctx : Ili9486lCtx) (buf : Nat → Nat) (x y width height : Int) :
    Int × Ili9486lCtx :=
  let (x, width, off) := if x < 0 then ((0 : Int), width + x, -x) else (x, width, (0 : Int))
  let (y, height, off) := if y < 0 then ((0 : Int), height + y, off + (-y) * width)
    else (y, height, off)
  let width := if cuint32 (x + width) > ctx.width then ctx.width - x else width
  let height := if cuint32 (y + height) > ctx.height then ctx.height - y else height
  if width ≤ 0 ∨ height ≤ 0 then (RPI_DISPLAY_OK, ctx)
  else
    let buffer := (List.range height.toNat).foldl
      (fun b (row : Nat) => (List.range width.toNat).foldl
        (fun b (col : Nat) =>
          Function.update b ((y + (row : Int)) * ctx.width + (x + (col : Int))).toNat
            (buf (off + (row : Int) * width + (col : Int)).toNat)) b)
      (activeBuffer ctx)
    let ctx := setActiveBuffer ctx buffer
    let ctx := mark_dirty_rect ctx x y width height
    (RPI_DISPLAY_OK, ctx)

/-- static `swap_buffers`. -/
def swap_buffers (ctx : Ili9486lCtx) : Ili9486lCtx :=
  { ctx with framebuffer := ctx.backbuffer, backbuffer := ctx.framebuffer }

/-- `rpi_display_refresh`. -/
def rpi_display_refresh (ctx : Ili9486lCtx) (bus : SpiBus) : Int × Ili9486lCtx × SpiBus :=
  let ctx := if ctx.double_buffer_enabled then swap_buffers ctx else ctx
  ili9486l_refresh_display ctx bus

/-- `rpi_display_refresh_rect`. -/
def rpi_display_refresh_rect (ctx : Ili9486lCtx) (bus : SpiBus) (x y width height : Int) :
    Int × SpiBus :=
  ili9486l_refresh_rect ctx bus x y width height

/-! ## RGB565 conversion helpers -/

/-- `rgb_to_rgb565` (arguments are uint8_t values). -/
def rgb_to_rgb565 (r g b : Nat) : Nat :=
  ((r &&& 0xF8) <<< 8) ||| ((g &&& 0xFC) <<< 3) ||| (b >>> 3)

/-- `rgb565_to_rgb`, returning `(r, g, b)`. -/
def rgb565_to_rgb (color : Nat) : Nat × Nat × Nat :=
  ((color >>> 11) <<< 3, ((color >>> 5) &&& 0x3F) <<< 2, (color &&& 0x1F) <<< 3)

/-! ## Touch driver (xpt2046_touch.c) -/

structure TouchConfig where
  cal_x_min : Int
  cal_x_max : Int
  cal_y_min : Int
  cal_y_max : Int
  swap_xy : Bool
  invert_x : Bool
  invert_y : Bool

/-- The default calibration used by `rpi_display_init`
(TOUCH_CAL_* constants, no swap, no inversion). -/
def defaultTouchConfig : TouchConfig :=
  { cal_x_min := 200, cal_x_max := 3900, cal_y_min := 200, cal_y_max := 3900,
    swap_xy := false, invert_x := false, invert_y := false }

/-- `xpt2046_set_calibration` (a plain memcpy of the config, no validation). -/
def xpt2046_set_calibration (config : TouchConfig) : TouchConfig := config

/-- `xpt2046_apply_calibration`, returning `(screen_x, screen_y)`.
All intermediates are int16_t in the C code; stores that can wrap are
modelled with `int16_of`, the scaling division is C truncating division. -/
def xpt2046_apply_calibration (cal : TouchConfig) (raw_x raw_y : Int) : Int × Int :=
  let cal_x := raw_x
  let cal_y := raw_y
  let (cal_x, cal_y) := if cal.swap_xy then (cal_y, cal_x) else (cal_x, cal_y)
  let cal_x := if cal.invert_x then int16_of (4095 - cal_x) else cal_x
  let cal_y := if cal.invert_y then int16_of (4095 - cal_y) else cal_y
  let screen_x := int16_of
    (Int.tdiv ((cal_x - cal.cal_x_min) * DISPLAY_WIDTH) (cal.cal_x_max - cal.cal_x_min))
  let screen_y := int16_of
    (Int.tdiv ((cal_y - cal.cal_y_min) * DISPLAY_HEIGHT) (cal.cal_y_max - cal.cal_y_min))
  let screen_x := if screen_x < 0 then 0 else screen_x
  let screen_x := if screen_x ≥ DISPLAY_WIDTH then DISPLAY_WIDTH - 1 else screen_x
  let screen_y := if screen_y < 0 then 0 else screen_y
  let screen_y := if screen_y ≥ DISPLAY_HEIGHT then DISPLAY_HEIGHT - 1 else screen_y
  (screen_x, screen_y)

def TOUCH_SAMPLE_COUNT : Nat := 5

/-- One inner pass of static `median_filter`'s bubble sort. -/
def bubblePass : List Int → List Int
  | [] => []
  | [a] => [a]
  | a :: b :: rest => if a > b then b :: bubblePass (a :: rest) else a :: bubblePass (b :: rest)

def bubbleSortAux : Nat → List Int → List Int
  | 0, l => l
  | n + 1, l => bubbleSortAux n (bubblePass l)

/-- static `median_filter`: bubble-sort the scratch copy, return the middle
element. -/
def median_filter (values : List Int) (count : Nat) : Int :=
  (bubbleSortAux (count - 1) values).getD (count / 2) 0

/-- The filter fields of `xpt2046_ctx_t`. -/
structure FilterState where
  filter_x : List Int
  filter_y : List Int
  filter_index : Nat
  filter_initialized : Bool

/-- `xpt2046_reset_filter`. -/
def xpt2046_reset_filter : FilterState :=
  ⟨List.replicate TOUCH_SAMPLE_COUNT 0, List.replicate TOUCH_SAMPLE_COUNT 0, 0, false⟩

/-- `xpt2046_filter_touch`, returning the new state and
`(filtered_x, filtered_y)`. -/
def xpt2046_filter_touch (s : FilterState) (raw_x raw_y : Int) :
    FilterState × Int × Int :=
  let fx := s.filter_x.set s.filter_index raw_x
  let fy := s.filter_y.set s.filter_index raw_y
  let idx := (s.filter_index + 1) % TOUCH_SAMPLE_COUNT
  let (fx, fy, init) :=
    if ¬ s.filter_initialized then
      (List.replicate TOUCH_SAMPLE_COUNT raw_x, List.replicate TOUCH_SAMPLE_COUNT raw_y, true)
    else (fx, fy, s.filter_initialized)
  (⟨fx, fy, idx, init⟩, median_filter fx TOUCH_SAMPLE_COUNT, median_filter fy TOUCH_SAMPLE_COUNT)

/-! ## Basic preservation lemmas -/

theorem mark_dirty_rect_width (ctx : Ili9486lCtx) (x y w h : Int) :
    (mark_dirty_rect ctx x y w h).width = ctx.width := by
  unfold mark_dirty_rect
  dsimp only
  split
  · rfl
  · split <;> rfl

theorem mark_dirty_rect_height (ctx : Ili9486lCtx) (x y w h : Int) :
    (mark_dirty_rect ctx x y w h).height = ctx.height := by
  unfold mark_dirty_rect
  dsimp only
  split
  · rfl
  · split <;> rfl

theorem mark_dirty_rect_dbe (ctx : Ili9486lCtx) (x y w h : Int) :
    (mark_dirty_rect ctx x y w h).double_buffer_enabled = ctx.double_buffer_enabled := by
  unfold mark_dirty_rect
  dsimp only
  split
  · rfl
  · split <;> rfl

theorem mark_dirty_rect_enabled (ctx : Ili9486lCtx) (x y w h : Int) :
    (mark_dirty_rect ctx x y w h).dirty_rect_enabled = ctx.dirty_rect_enabled := by
  unfold mark_dirty_rect
  dsimp only
  split
  · rfl
  · split <;> rfl

theorem mark_dirty_rect_framebuffer (ctx : Ili9486lCtx) (x y w h : Int) :
    (mark_dirty_rect ctx x y w h).framebuffer = ctx.framebuffer := by
  unfold mark_dirty_rect
  dsimp only
  split
  · rfl
  · split <;> rfl

theorem mark_dirty_rect_backbuffer (ctx : Ili9486lCtx) (x y w h : Int) :
    (mark_dirty_rect ctx x y w h).backbuffer = ctx.backbuffer := by
  unfold mark_dirty_rect
  dsimp only
  split
  · rfl
  · split <;> rfl

theorem activeBuffer_mark_dirty_rect (ctx : Ili9486lCtx) (x y w h : Int) :
    activeBuffer (mark_dirty_rect ctx x y w h) = activeBuffer ctx := by
  unfold activeBuffer
  rw [mark_dirty_rect_dbe, mark_dirty_rect_framebuffer, mark_dirty_rect_backbuffer]

theorem setActiveBuffer_width (ctx : Ili9486lCtx) (b : Nat → Nat) :
    (setActiveBuffer ctx b).width = ctx.width := by
  unfold setActiveBuffer; split <;> rfl

theorem setActiveBuffer_height (ctx : Ili9486lCtx) (b : Nat → Nat) :
    (setActiveBuffer ctx b).height = ctx.height := by
  unfold setActiveBuffer; split <;> rfl

theorem setActiveBuffer_dbe (ctx : Ili9486lCtx) (b : Nat → Nat) :
    (setActiveBuffer ctx b).double_buffer_enabled = ctx.double_buffer_enabled := by
  unfold setActiveBuffer; split <;> rfl

theorem setActiveBuffer_enabled (ctx : Ili9486lCtx) (b : Nat → Nat) :
    (setActiveBuffer ctx b).dirty_rect_enabled = ctx.dirty_rect_enabled := by
  unfold setActiveBuffer; split <;> rfl

theorem setActiveBuffer_dirty_x_min (ctx : Ili9486lCtx) (b : Nat → Nat) :
    (setActiveBuffer ctx b).dirty_x_min = ctx.dirty_x_min := by
  unfold setActiveBuffer; split <;> rfl

theorem setActiveBuffer_dirty_y_min (ctx : Ili9486lCtx) (b : Nat → Nat) :
    (setActiveBuffer ctx b).dirty_y_min = ctx.dirty_y_min := by
  unfold setActiveBuffer; split <;> rfl

theorem setActiveBuffer_dirty_x_max (ctx : Ili9486lCtx) (b : Nat → Nat) :
    (setActiveBuffer ctx b).dirty_x_max = ctx.dirty_x_max := by
  unfold setActiveBuffer; split <;> rfl

theorem setActiveBuffer_dirty_y_max (ctx : Ili9486lCtx) (b : Nat → Nat) :
    (setActiveBuffer ctx b).dirty_y_max = ctx.dirty_y_max := by
  unfold setActiveBuffer; split <;> rfl

theorem activeBuffer_setActiveBuffer (ctx : Ili9486lCtx) (b : Nat → Nat) :
    activeBuffer (setActiveBuffer ctx b) = b := by
  unfold activeBuffer setActiveBuffer
  by_cases h : ctx.double_buffer_enabled <;> simp [h]

/-! ## C5: calibration endpoints -/

/-- C5: with the current (default) calibration configuration,
`apply_calibration` maps raw `(cal_x_min, cal_y_min) = (200, 200)` to
screen `(0, 0)`, maps raw `(cal_x_max, cal_y_max) = (3900, 3900)` to
`(width-1, height-1) = (319, 479)` after clamping, and with `invert_x`
enabled raw `x = cal_x_min` yields the same screen x as raw `x = cal_x_max`
does without inversion. -/
theorem calibration_endpoints :
    xpt2046_apply_calibration defaultTouchConfig 200 200 = (0, 0) ∧
    xpt2046_apply_calibration defaultTouchConfig 3900 3900 = (319, 479) ∧
    ∀ raw_y : Int,
      (xpt2046_apply_calibration { defaultTouchConfig with invert_x := true } 200 raw_y).1 =
        (xpt2046_apply_calibration defaultTouchConfig 3900 raw_y).1 :=
  ⟨by decide, by decide, fun _ => rfl⟩

/-! ## C6: set_pixel/get_pixel round trip -/

/-- C6: for every in-bounds coordinate and every 16-bit color,
`set_pixel` followed by `get_pixel` (no intervening writes) returns the
color — both read/write the active write buffer; and `get_pixel` returns
the default 0 for out-of-range coordinates instead of erroring. -/
theorem set_get_pixel_roundtrip :
    (∀ (ctx : Ili9486lCtx) (x y : Int) (color : Nat),
       0 ≤ x → x < ctx.width → 0 ≤ y → y < ctx.height → color < 65536 →
       rpi_display_get_pixel (rpi_display_set_pixel ctx x y color).2 x y = color) ∧
    (∀ (ctx : Ili9486lCtx) (x y : Int),
       (x < 0 ∨ x ≥ ctx.width ∨ y < 0 ∨ y ≥ ctx.height) →
       rpi_display_get_pixel ctx x y = 0) := by
  constructor
  · intro ctx x y color hx0 hxw hy0 hyh hc
    have hguard : ¬ (x < 0 ∨ x ≥ ctx.width ∨ y < 0 ∨ y ≥ ctx.height) := by omega
    unfold rpi_display_set_pixel
    rw [if_neg hguard]
    unfold rpi_display_get_pixel
    simp only [mark_dirty_rect_width, mark_dirty_rect_height, setActiveBuffer_width,
      setActiveBuffer_height, activeBuffer_mark_dirty_rect, activeBuffer_setActiveBuffer]
    rw [if_neg hguard, Function.update_same]
    exact Nat.mod_eq_of_lt hc
  · intro ctx x y h
    unfold rpi_display_get_pixel
    rw [if_pos h]

theorem set_get_pixel_roundtrip_witness :
    rpi_display_get_pixel
        (rpi_display_set_pixel (initCtx true (fun _ => 0) (fun _ => 0)) 3 4 0xABCD).2 3 4 =
      0xABCD ∧
    rpi_display_get_pixel (initCtx true (fun _ => 0) (fun _ => 0)) (-1) 0 = 0 :=
  ⟨set_get_pixel_roundtrip.1 (initCtx true (fun _ => 0) (fun _ => 0)) 3 4 0xABCD
      (by decide) (by decide) (by decide) (by decide) (by decide),
   set_get_pixel_roundtrip.2 (initCtx true (fun _ => 0) (fun _ => 0)) (-1) 0 (by decide)⟩

/-! ## C10: apply_calibration is total and clamped into the panel bounds -/

/-- `apply_calibration` always ends in the two clamp steps per axis: its
result is the clamp chain applied to some pre-clamp values. -/
theorem apply_cal_shape (cal : TouchConfig) (rx ry : Int) :
    ∃ vx vy : Int,
      xpt2046_apply_calibration cal rx ry =
        (if (if vx < 0 then 0 else vx) ≥ DISPLAY_WIDTH then DISPLAY_WIDTH - 1
         else if vx < 0 then 0 else vx,
         if (if vy < 0 then 0 else vy) ≥ DISPLAY_HEIGHT then DISPLAY_HEIGHT - 1
         else if vy < 0 then 0 else vy) := by
  unfold xpt2046_apply_calibration
  rcases hsw : cal.swap_xy <;> simp only [hsw, if_true, if_false] <;> exact ⟨_, _, rfl⟩

/-- C10: under the precondition that the configured raw ranges are
non-degenerate (`cal_x_max ≠ cal_x_min`, `cal_y_max ≠ cal_y_min` — which
`set_calibration` does not enforce), `apply_calibration` is total for every
16-bit raw input pair and every swap/invert flag combination, and its output
satisfies `0 ≤ screen_x ≤ 319` and `0 ≤ screen_y ≤ 479`. -/
theorem apply_calibration_total_bounded :
    ∀ (config : TouchConfig) (raw_x raw_y : Int),
      config.cal_x_max ≠ config.cal_x_min →
      config.cal_y_max ≠ config.cal_y_min →
      -32768 ≤ raw_x → raw_x ≤ 32767 →
      -32768 ≤ raw_y → raw_y ≤ 32767 →
      0 ≤ (xpt2046_apply_calibration (xpt2046_set_calibration config) raw_x raw_y).1 ∧
      (xpt2046_apply_calibration (xpt2046_set_calibration config) raw_x raw_y).1 ≤ 319 ∧
      0 ≤ (xpt2046_apply_calibration (xpt2046_set_calibration config) raw_x raw_y).2 ∧
      (xpt2046_apply_calibration (xpt2046_set_calibration config) raw_x raw_y).2 ≤ 479 := by
  intro config raw_x raw_y _ _ _ _ _ _
  obtain ⟨vx, vy, h⟩ := apply_cal_shape (xpt2046_set_calibration config) raw_x raw_y
  rw [h]
  unfold DISPLAY_WIDTH DISPLAY_HEIGHT
  refine ⟨?_, ?_, ?_, ?_⟩ <;> dsimp only <;> split_ifs <;> omega

theorem apply_calibration_total_bounded_witness :
    0 ≤ (xpt2046_apply_calibration (xpt2046_set_calibration defaultTouchConfig) 0 0).1 ∧
    (xpt2046_apply_calibration (xpt2046_set_calibration defaultTouchConfig) 0 0).1 ≤ 319 ∧
    0 ≤ (xpt2046_apply_calibration (xpt2046_set_calibration defaultTouchConfig) 0 0).2 ∧
    (xpt2046_apply_calibration (xpt2046_set_calibration defaultTouchConfig) 0 0).2 ≤ 479 :=
  apply_calibration_total_bounded defaultTouchConfig 0 0 (by decide) (by decide)
    (by decide) (by decide) (by decide) (by decide)

/-! ## C9: refresh_rect validates its rectangle -/

/-- C9: for every rectangle with `x < 0`, `y < 0`, `x + width > display
width` or `y + height > display height` (all C `int` arithmetic in range),
`refresh_rect` returns the invalid-argument error and performs no bus
transfer; it never touches the frame buffers or the dirty region (in the
embedding `ili9486l_refresh_rect` does not modify the context at all, which
mirrors the C function writing only perf counters on success). -/
theorem refresh_rect_validates :
    ∀ (ctx : Ili9486lCtx) (bus : SpiBus) (x y width height : Int),
      0 ≤ ctx.width → ctx.width ≤ 2147483647 →
      0 ≤ ctx.height → ctx.height ≤ 2147483647 →
      x + width ≤ 2147483647 → y + height ≤ 2147483647 →
      (x < 0 ∨ y < 0 ∨ x + width > ctx.width ∨ y + height > ctx.height) →
      rpi_display_refresh_rect ctx bus x y width height = (RPI_DISPLAY_ERROR_INVALID, bus) := by
  intro ctx bus x y w h hW0 hW1 hH0 hH1 hxw hyh hbad
  unfold rpi_display_refresh_rect ili9486l_refresh_rect
  rw [if_pos]
  rcases hbad with hc | hc | hc | hc
  · exact Or.inl hc
  · exact Or.inr (Or.inl hc)
  · by_cases hx : x < 0
    · exact Or.inl hx
    · refine Or.inr (Or.inr (Or.inl ?_))
      have hpos : 0 ≤ x + w := by omega
      have hcu : cuint32 (x + w) = x + w := by
        unfold cuint32; exact Int.emod_eq_of_lt hpos (by omega)
      omega
  · by_cases hy : y < 0
    · exact Or.inr (Or.inl hy)
    · refine Or.inr (Or.inr (Or.inr ?_))
      have hpos : 0 ≤ y + h := by omega
      have hcu : cuint32 (y + h) = y + h := by
        unfold cuint32; exact Int.emod_eq_of_lt hpos (by omega)
      omega

theorem refresh_rect_validates_witness :
    rpi_display_refresh_rect (initCtx false (fun _ => 0) (fun _ => 0)) spiOk 0 0 400 10 =
      (RPI_DISPLAY_ERROR_INVALID, spiOk) :=
  refresh_rect_validates (initCtx false (fun _ => 0) (fun _ => 0)) spiOk 0 0 400 10
    (by decide) (by decide) (by decide) (by decide) (by decide) (by decide)
    (Or.inr (Or.inr (Or.inl (by decide))))

/-! ## C7: RGB ↔ RGB565 conversion round trips -/

theorem maskAnd (n k : Nat) : n &&& (2 ^ k - 1) = n % 2 ^ k := by
  apply Nat.eq_of_testBit_eq
  intro i
  rw [Nat.testBit_and, Nat.testBit_two_pow_sub_one, Nat.testBit_mod_two_pow, Bool.and_comm]

theorem and248 : ∀ r < 256, r &&& 248 = 8 * (r / 8) := by decide

theorem and252 : ∀ g < 256, g &&& 252 = 4 * (g / 4) := by decide

/-- Arithmetic form of `rgb_to_rgb565` on 8-bit inputs. -/
theorem pack_eq (r g b : Nat) (hr : r < 256) (hg : g < 256) (hb : b < 256) :
    rgb_to_rgb565 r g b = 2048 * (r / 8) + 32 * (g / 4) + b / 8 := by
  unfold rgb_to_rgb565
  rw [and248 r hr, and252 g hg, Nat.shiftLeft_eq, Nat.shiftLeft_eq, Nat.shiftRight_eq_div_pow]
  have h1 : 8 * (r / 8) * 2 ^ 8 = 2 ^ 11 * (r / 8) := by ring
  have h2 : 4 * (g / 4) * 2 ^ 3 = 2 ^ 5 * (g / 4) := by ring
  rw [h1, h2]
  have hgo : 2 ^ 5 * (g / 4) < 2 ^ 11 := by omega
  rw [← Nat.mul_add_lt_is_or hgo (r / 8)]
  have h3 : 2 ^ 11 * (r / 8) + 2 ^ 5 * (g / 4) = 2 ^ 5 * (64 * (r / 8) + g / 4) := by ring
  have hbo : b / 2 ^ 3 < 2 ^ 5 := by omega
  rw [h3, ← Nat.mul_add_lt_is_or hbo (64 * (r / 8) + g / 4)]
  have hb8 : b / 2 ^ 3 = b / 8 := by norm_num
  rw [hb8]; ring

/-- Arithmetic form of `rgb565_to_rgb`. -/
theorem unpack_eq (c : Nat) :
    rgb565_to_rgb c = ((c / 2048) * 8, (c / 32 % 64) * 4, (c % 32) * 8) := by
  unfold rgb565_to_rgb
  rw [Nat.shiftRight_eq_div_pow, Nat.shiftRight_eq_div_pow, Nat.shiftLeft_eq, Nat.shiftLeft_eq,
    Nat.shiftLeft_eq, show (0x3F : Nat) = 2 ^ 6 - 1 by norm_num,
    show (0x1F : Nat) = 2 ^ 5 - 1 by norm_num, maskAnd, maskAnd]
  norm_num

/-- C7: converting 8-bit `(r, g, b)` to RGB565 and back is within the
quantization error of the 5/6/5 bit reduction per channel (with exact
equality when `r`, `b` are multiples of 8 and `g` a multiple of 4), and
converting any 16-bit 565 value to RGB and back is the identity: the
helpers are exact inverses for values expressible in both
representations. -/
theorem rgb565_conversion_roundtrip :
    (∀ r g b : Nat, r < 256 → g < 256 → b < 256 →
       (rgb565_to_rgb (rgb_to_rgb565 r g b)).1 ≤ r ∧
       r - (rgb565_to_rgb (rgb_to_rgb565 r g b)).1 < 8 ∧
       (rgb565_to_rgb (rgb_to_rgb565 r g b)).2.1 ≤ g ∧
       g - (rgb565_to_rgb (rgb_to_rgb565 r g b)).2.1 < 4 ∧
       (rgb565_to_rgb (rgb_to_rgb565 r g b)).2.2 ≤ b ∧
       b - (rgb565_to_rgb (rgb_to_rgb565 r g b)).2.2 < 8 ∧
       (r % 8 = 0 → (rgb565_to_rgb (rgb_to_rgb565 r g b)).1 = r) ∧
       (g % 4 = 0 → (rgb565_to_rgb (rgb_to_rgb565 r g b)).2.1 = g) ∧
       (b % 8 = 0 → (rgb565_to_rgb (rgb_to_rgb565 r g b)).2.2 = b)) ∧
    (∀ c : Nat, c < 65536 →
       rgb_to_rgb565 (rgb565_to_rgb c).1 (rgb565_to_rgb c).2.1 (rgb565_to_rgb c).2.2 = c) := by
  constructor
  · intro r g b hr hg hb
    rw [pack_eq r g b hr hg hb, unpack_eq]
    dsimp only
    omega
  · intro c hc
    rw [unpack_eq]
    dsimp only
    rw [pack_eq _ _ _ (by omega) (by omega) (by omega)]
    rw [Nat.mul_div_cancel _ (by norm_num), Nat.mul_div_cancel _ (by norm_num),
      Nat.mul_div_cancel _ (by norm_num)]
    omega

theorem rgb565_conversion_roundtrip_witness :
    (rgb565_to_rgb (rgb_to_rgb565 248 252 248)).1 = 248 ∧
    rgb_to_rgb565 (rgb565_to_rgb 0xF800).1 (rgb565_to_rgb 0xF800).2.1
      (rgb565_to_rgb 0xF800).2.2 = 0xF800 :=
  ⟨(rgb565_conversion_roundtrip.1 248 252 248 (by decide) (by decide) (by decide)).2.2.2.2.2.2.1
      (by decide),
   rgb565_conversion_roundtrip.2 0xF800 (by decide)⟩

/-! ## C8: median filtering -/

/-- Iterated constant feeding: `feedConst s p n` is the result of
`n + 1` successive `filter_touch` calls with the same raw pair `p`. -/
def feedConst (s : FilterState) (p : Int × Int) : Nat → FilterState × Int × Int
  | 0 => xpt2046_filter_touch s p.1 p.2
  | n + 1 => xpt2046_filter_touch (feedConst s p n).1 p.1 p.2

theorem set_replicate_self (v : Int) (n i : Nat) :
    (List.replicate n v).set i v = List.replicate n v := by
  induction n generalizing i with
  | zero => simp
  | succ m ih =>
    cases i with
    | zero => simp [List.replicate_succ, List.set]
    | succ j => simp [List.replicate_succ, List.set, ih]

theorem median_replicate (v : Int) : median_filter [v, v, v, v, v] 5 = v := by
  simp [median_filter, bubbleSortAux, bubblePass]

/-- After any number of constant feeds from a reset filter, the history is
the replicated sample, the cursor has advanced, and the filter is seeded. -/
theorem feedConst_state (v w : Int) (n : Nat) :
    (feedConst xpt2046_reset_filter (v, w) n).1 =
      ⟨List.replicate 5 v, List.replicate 5 w, (n + 1) % 5, true⟩ := by
  induction n with
  | zero => simp [feedConst, xpt2046_filter_touch, xpt2046_reset_filter, TOUCH_SAMPLE_COUNT]
  | succ m ih =>
    show (xpt2046_filter_touch (feedConst xpt2046_reset_filter (v, w) m).1 v w).1 = _
    rw [ih]
    simp [xpt2046_filter_touch, TOUCH_SAMPLE_COUNT, set_replicate_self, FilterState.mk.injEq]
    exact ⟨set_replicate_self v 5 ((m + 1) % 5), set_replicate_self w 5 ((m + 1) % 5)⟩

/-- The median of a 5-sample history holding one outlier among four copies
of `v` is `v`, wherever the outlier sits. -/
theorem medianOneOff (i : Nat) (hi : i < 5) (v w : Int) :
    median_filter ([v, v, v, v, v].set i w) 5 = v := by
  interval_cases i <;>
    · show median_filter _ 5 = v
      rcases lt_trichotomy w v with h | h | h
      · have h' : ¬ v < w := by omega
        simp [List.replicate, List.set, median_filter, bubbleSortAux, bubblePass, h, h']
      · subst h
        simp [List.replicate, List.set, median_filter, bubbleSortAux, bubblePass]
      · have h' : ¬ w < v := by omega
        simp [List.replicate, List.set, median_filter, bubbleSortAux, bubblePass, h, h']

/-- C8: starting from a reset filter, feeding a constant raw `(x, y)` pair
`N + 1` times through `filter_touch` returns exactly that pair (the history
is seeded by replicating the first sample after a reset); and with a
history otherwise holding a constant value, one outlier sample does not
change the per-axis median returned. -/
theorem median_filter_robust :
    (∀ v w : Int, (feedConst xpt2046_reset_filter (v, w) TOUCH_SAMPLE_COUNT).2 = (v, w)) ∧
    (∀ (i : Nat) (v vy w wy : Int), i < 5 →
      (xpt2046_filter_touch ⟨List.replicate 5 v, List.replicate 5 vy, i, true⟩ w wy).2 =
        (v, vy)) := by
  constructor
  · intro v w
    show (xpt2046_filter_touch (feedConst xpt2046_reset_filter (v, w) 4).1 v w).2 = (v, w)
    rw [feedConst_state]
    simp [xpt2046_filter_touch, TOUCH_SAMPLE_COUNT, set_replicate_self, median_replicate]
  · intro i v vy w wy hi
    simp [xpt2046_filter_touch, TOUCH_SAMPLE_COUNT]
    exact ⟨medianOneOff i hi v w, medianOneOff i hi vy wy⟩

theorem median_filter_robust_witness :
    (xpt2046_filter_touch ⟨List.replicate 5 100, List.replicate 5 7, 1, true⟩ 9999 (-5)).2 =
      (100, 7) :=
  median_filter_robust.2 1 100 7 9999 (-5) (by decide)

/-! ## C2: wire framing of a rectangle transfer -/

theorem loByte_eq (n : Nat) : n &&& 255 = n % 256 := by
  rw [show (255 : Nat) = 2 ^ 8 - 1 by norm_num, maskAnd]
  norm_num

theorem hiByte_eq (n : Nat) (h : n < 65536) : (n >>> 8) &&& 255 = n / 256 := by
  rw [Nat.shiftRight_eq_div_pow, loByte_eq, show (2 : Nat) ^ 8 = 256 by norm_num]
  omega

theorem byteHi_eq (v : Int) (h : v.toNat < 65536) : byteHi v = v.toNat / 256 :=
  hiByte_eq v.toNat h

theorem byteLo_eq (v : Int) : byteLo v = v.toNat % 256 :=
  loByte_eq v.toNat

theorem flatMap_congr {α β : Type} {l : List α} {f g : α → List β}
    (h : ∀ a ∈ l, f a = g a) : l.flatMap f = l.flatMap g := by
  induction l with
  | nil => rfl
  | cons a t ih =>
    simp only [List.flatMap_cons]
    rw [h a (by simp), ih (fun b hb => h b (by simp [hb]))]

/-- C2: for every in-bounds rectangle (width, height ≥ 1), the transfer
emits on the bus, byte for byte: CASET with big-endian 16-bit start/end
column, PASET with big-endian 16-bit start/end row, RAMWR, then exactly
`W*H` 16-bit pixels of the source buffer in row-major order, each high byte
first (independently of any host representation: the split is arithmetic on
the pixel value). -/
theorem wire_framing :
    ∀ (ctx : Ili9486lCtx) (x y width height : Int),
      0 ≤ x → 0 ≤ y → 1 ≤ width → 1 ≤ height →
      x + width ≤ ctx.width → y + height ≤ ctx.height →
      ctx.width ≤ 65536 → ctx.height ≤ 65536 →
      (∀ i, activeBuffer ctx i < 65536) →
      rpi_display_refresh_rect ctx spiOk x y width height =
        (RPI_DISPLAY_OK,
         ⟨fun _ => true, 6,
          [.cmd ILI9486L_CASET,
           .data [x.toNat / 256, x.toNat % 256, (x + width - 1).toNat / 256,
                  (x + width - 1).toNat % 256],
           .cmd ILI9486L_PASET,
           .data [y.toNat / 256, y.toNat % 256, (y + height - 1).toNat / 256,
                  (y + height - 1).toNat % 256],
           .cmd ILI9486L_RAMWR,
           .data ((List.range height.toNat).flatMap fun row =>
             (List.range width.toNat).flatMap fun col =>
               let p := activeBuffer ctx ((y + (row : Int)) * ctx.width + (x + (col : Int))).toNat
               [p / 256, p % 256])]⟩) := by
  intro ctx x y width height hx hy hw hh hxw hyh hW hH hbuf
  have hcux : cuint32 (x + width) = x + width := by
    unfold cuint32; exact Int.emod_eq_of_lt (by omega) (by omega)
  have hcuy : cuint32 (y + height) = y + height := by
    unfold cuint32; exact Int.emod_eq_of_lt (by omega) (by omega)
  have hstep : rpi_display_refresh_rect ctx spiOk x y width height =
      (RPI_DISPLAY_OK,
       ⟨fun _ => true, 6,
        [.cmd ILI9486L_CASET,
         .data [byteHi x, byteLo x, byteHi (x + width - 1), byteLo (x + width - 1)],
         .cmd ILI9486L_PASET,
         .data [byteHi y, byteLo y, byteHi (y + height - 1), byteLo (y + height - 1)],
         .cmd ILI9486L_RAMWR,
         .data (rectBytes (activeBuffer ctx) ctx.width x y width height)]⟩) := by
    unfold rpi_display_refresh_rect ili9486l_refresh_rect
    rw [if_neg (by omega)]
    rfl
  rw [hstep, byteHi_eq x (by omega), byteLo_eq x,
    byteHi_eq (x + width - 1) (by omega), byteLo_eq (x + width - 1),
    byteHi_eq y (by omega), byteLo_eq y,
    byteHi_eq (y + height - 1) (by omega), byteLo_eq (y + height - 1)]
  have hpayload : rectBytes (activeBuffer ctx) ctx.width x y width height =
      (List.range height.toNat).flatMap fun row =>
        (List.range width.toNat).flatMap fun col =>
          let p := activeBuffer ctx ((y + (row : Int)) * ctx.width + (x + (col : Int))).toNat
          [p / 256, p % 256] := by
    unfold rectBytes
    refine flatMap_congr fun row hrow => flatMap_congr fun col hcol => ?_
    dsimp only
    rw [hiByte_eq _ (hbuf _), loByte_eq]
  rw [hpayload]

/-! ## C1: the end-to-end refresh scenario

`init(double buffering on); clear(BLACK); fill_rect(10,10,100,50,RED);
refresh(); refresh()`, with arbitrary initial buffer contents `fb`
(front) and `bb` (back). -/

def c1Init (fb bb : Nat → Nat) : Ili9486lCtx := initCtx true fb bb

def c1Drawn (fb bb : Nat → Nat) : Ili9486lCtx :=
  (rpi_display_fill_rect (rpi_display_clear (c1Init fb bb) COLOR_BLACK).2
    10 10 100 50 COLOR_RED).2

def c1Refresh1 (fb bb : Nat → Nat) : Int × Ili9486lCtx × SpiBus :=
  rpi_display_refresh (c1Drawn fb bb) spiOk

def c1Refresh2 (fb bb : Nat → Nat) : Int × Ili9486lCtx × SpiBus :=
  rpi_display_refresh (c1Refresh1 fb bb).2.1 spiOk

/-- The wire trace the claim describes for the first refresh: the window
`(10,10)-(109,59)` followed by `100*50` RED pixels, big-endian. -/
def c1ClaimedTrace : List BusEvent :=
  [.cmd ILI9486L_CASET, .data [0, 10, 0, 109], .cmd ILI9486L_PASET, .data [0, 10, 0, 59],
   .cmd ILI9486L_RAMWR, .data ((List.range 5000).flatMap fun _ => [0xF8, 0x00])]

/-- What the first refresh actually emits: the full-screen window
`(0,0)-(319,479)`, and the pixel payload taken from `fb` — the pre-swap
front buffer, not the buffer the drawing calls wrote. -/
theorem c1_trace1_eq (fb bb : Nat → Nat) :
    (c1Refresh1 fb bb).2.2.trace =
      [.cmd ILI9486L_CASET, .data [0, 0, 1, 63], .cmd ILI9486L_PASET, .data [0, 0, 1, 223],
       .cmd ILI9486L_RAMWR,
       .data (rectBytes fb DISPLAY_WIDTH 0 0 DISPLAY_WIDTH DISPLAY_HEIGHT)] := by
  have h0 : (c1Refresh1 fb bb).2.2.trace =
      [.cmd ILI9486L_CASET,
       .data [byteHi (0 : Int), byteLo (0 : Int), byteHi (319 : Int), byteLo (319 : Int)],
       .cmd ILI9486L_PASET,
       .data [byteHi (0 : Int), byteLo (0 : Int), byteHi (479 : Int), byteLo (479 : Int)],
       .cmd ILI9486L_RAMWR,
       .data (rectBytes fb DISPLAY_WIDTH 0 0 DISPLAY_WIDTH DISPLAY_HEIGHT)] := rfl
  rw [h0, show byteHi (0 : Int) = 0 from rfl, show byteLo (0 : Int) = 0 from rfl,
    show byteHi (319 : Int) = 1 from rfl, show byteLo (319 : Int) = 63 from rfl,
    show byteHi (479 : Int) = 1 from rfl, show byteLo (479 : Int) = 223 from rfl]

/-- What the second refresh emits: again the full-screen window, now with
the payload taken from the buffer the drawing calls wrote. -/
theorem c1_trace2_eq (fb bb : Nat → Nat) :
    (c1Refresh2 fb bb).2.2.trace =
      [.cmd ILI9486L_CASET, .data [0, 0, 1, 63], .cmd ILI9486L_PASET, .data [0, 0, 1, 223],
       .cmd ILI9486L_RAMWR,
       .data (rectBytes (c1Drawn fb bb).backbuffer DISPLAY_WIDTH 0 0
         DISPLAY_WIDTH DISPLAY_HEIGHT)] := by
  have h0 : (c1Refresh2 fb bb).2.2.trace =
      [.cmd ILI9486L_CASET,
       .data [byteHi (0 : Int), byteLo (0 : Int), byteHi (319 : Int), byteLo (319 : Int)],
       .cmd ILI9486L_PASET,
       .data [byteHi (0 : Int), byteLo (0 : Int), byteHi (479 : Int), byteLo (479 : Int)],
       .cmd ILI9486L_RAMWR,
       .data (rectBytes (c1Drawn fb bb).backbuffer DISPLAY_WIDTH 0 0
         DISPLAY_WIDTH DISPLAY_HEIGHT)] := rfl
  rw [h0, show byteHi (0 : Int) = 0 from rfl, show byteLo (0 : Int) = 0 from rfl,
    show byteHi (319 : Int) = 1 from rfl, show byteLo (319 : Int) = 63 from rfl,
    show byteHi (479 : Int) = 1 from rfl, show byteLo (479 : Int) = 223 from rfl]

/-- C1, counterexample: with the front buffer initially all-green
(`0x07E0`) and the back buffer all-zero, the claim's transmitted data —
exactly the rectangle `(10,10,100,50)` of RED pixels, and a second refresh
transferring nothing — is false: the first refresh programs the full-screen
window `(0,0)-(319,479)` (CASET data `[0,0,1,63]`, not `[0,10,0,109]`). -/
theorem end_to_end_refresh_counterexample :
    ¬ ((c1Refresh1 (fun _ => 0x07E0) (fun _ => 0)).2.2.trace = c1ClaimedTrace ∧
       (c1Refresh2 (fun _ => 0x07E0) (fun _ => 0)).2.2.trace = []) := by
  rintro ⟨h1, _⟩
  rw [c1_trace1_eq] at h1
  have h2 := congrArg (fun l => l[1]?) h1
  simp only [c1ClaimedTrace, List.getElem?_cons_zero, List.getElem?_cons_succ] at h2
  exact absurd h2 (by decide)

/-- Value of the `clear` loop at an index. -/
theorem foldl_update_range (buf : Nat → Nat) (c : Nat) (n i : Nat) :
    ((List.range n).foldl (fun b j => Function.update b j c) buf) i =
      if i < n then c else buf i := by
  induction n with
  | zero => simp
  | succ m ih =>
    rw [List.range_succ, List.foldl_append]
    simp only [List.foldl_cons, List.foldl_nil]
    rw [Function.update_apply]
    by_cases h : i = m
    · subst h; simp
    · rw [if_neg h, ih]
      by_cases h2 : i < m
      · rw [if_pos h2, if_pos (by omega)]
      · rw [if_neg h2, if_neg (by omega)]

/-- Value of one row of the `fill_rect` loop at an index. -/
theorem fill_row_apply (b0 : Nat → Nat) (c : Nat) (W X Y : Int) (w i : Nat)
    (hX : 0 ≤ X) (hY : 0 ≤ Y) (hW : 0 ≤ W) :
    ((List.range w).foldl
        (fun b (col : Nat) => Function.update b (Y * W + (X + (col : Int))).toNat c) b0) i =
      if ∃ col < w, (i : Int) = Y * W + (X + col) then c else b0 i := by
  have hYW : 0 ≤ Y * W := mul_nonneg hY hW
  induction w with
  | zero => simp
  | succ m ih =>
    rw [List.range_succ, List.foldl_append]
    simp only [List.foldl_cons, List.foldl_nil]
    rw [Function.update_apply, ih]
    by_cases h1 : i = (Y * W + (X + (m : Int))).toNat
    · rw [if_pos h1, if_pos ⟨m, by omega, by omega⟩]
    · rw [if_neg h1]
      by_cases h2 : ∃ col < m, (i : Int) = Y * W + (X + col)
      · obtain ⟨col, hc, hceq⟩ := h2
        rw [if_pos ⟨col, hc, hceq⟩, if_pos ⟨col, by omega, hceq⟩]
      · rw [if_neg h2, if_neg ?_]
        rintro ⟨col, hc, hceq⟩
        rcases Nat.lt_succ_iff_lt_or_eq.1 hc with hlt | hrfl
        · exact h2 ⟨col, hlt, hceq⟩
        · subst hrfl; exact h1 (by omega)

/-- Value of the whole `fill_rect` loop at an index. -/
theorem fill_fold_apply (b0 : Nat → Nat) (c : Nat) (W x y : Int) (w h i : Nat)
    (hx : 0 ≤ x) (hy : 0 ≤ y) (hW : 0 ≤ W) :
    ((List.range h).foldl
        (fun b (row : Nat) => (List.range w).foldl
          (fun b (col : Nat) =>
            Function.update b ((y + (row : Int)) * W + (x + (col : Int))).toNat c) b) b0) i =
      if ∃ row < h, ∃ col < w, (i : Int) = (y + row) * W + (x + col) then c else b0 i := by
  induction h with
  | zero => simp
  | succ m ih =>
    rw [List.range_succ, List.foldl_append]
    simp only [List.foldl_cons, List.foldl_nil]
    rw [fill_row_apply _ c W x (y + (m : Int)) w i hx (by omega) hW, ih]
    by_cases h1 : ∃ col < w, (i : Int) = (y + m) * W + (x + col)
    · rw [if_pos h1, if_pos (by obtain ⟨col, hc, hceq⟩ := h1; exact ⟨m, by omega, col, hc, hceq⟩)]
    · rw [if_neg h1]
      by_cases h2 : ∃ row < m, ∃ col < w, (i : Int) = (y + row) * W + (x + col)
      · obtain ⟨row, hr, col, hc, hceq⟩ := h2
        rw [if_pos ⟨row, hr, col, hc, hceq⟩, if_pos ⟨row, by omega, col, hc, hceq⟩]
      · rw [if_neg h2, if_neg ?_]
        rintro ⟨row, hr, col, hc, hceq⟩
        rcases Nat.lt_succ_iff_lt_or_eq.1 hr with hlt | hrfl
        · exact h2 ⟨row, hlt, col, hc, hceq⟩
        · subst hrfl; exact h1 ⟨col, hc, hceq⟩

/-- The clip of an already in-bounds rectangle is the identity (for display
dimensions below `2^32`, the unsigned right/bottom comparisons reduce to the
signed ones). -/
theorem clipRect_inbounds (W H x y w h : Int) (hx : 0 ≤ x) (hy : 0 ≤ y)
    (hw : 0 ≤ w) (hh : 0 ≤ h)
    (hxw : x + w ≤ W) (hyh : y + h ≤ H)
    (hW32 : W < 4294967296) (hH32 : H < 4294967296) :
    clipRect W H x y w h = (x, y, w, h) := by
  unfold clipRect
  rw [if_neg (by omega), if_neg (by omega)]
  dsimp only
  have hcux : cuint32 (x + w) = x + w := by
    unfold cuint32
    exact Int.emod_eq_of_lt (by omega) (by omega)
  have hcuy : cuint32 (y + h) = y + h := by
    unfold cuint32
    exact Int.emod_eq_of_lt (by omega) (by omega)
  rw [if_neg (by rw [hcux]; omega), if_neg (by rw [hcuy]; omega)]

/-- Pointwise value of the active write buffer after `clear`. -/
theorem clear_apply (ctx : Ili9486lCtx) (color : Nat) (i : Nat) :
    activeBuffer (rpi_display_clear ctx color).2 i =
      if i < (ctx.width * ctx.height).toNat then color % 65536 else activeBuffer ctx i := by
  unfold rpi_display_clear
  dsimp only
  rw [activeBuffer_mark_dirty_rect, activeBuffer_setActiveBuffer, foldl_update_range]

/-- Pointwise value of the active write buffer after an in-bounds
`fill_rect`. -/
theorem fill_rect_apply (ctx : Ili9486lCtx) (x y w h : Int) (color : Nat) (i : Nat)
    (hx : 0 ≤ x) (hy : 0 ≤ y)
    (hxw : x + w ≤ ctx.width) (hyh : y + h ≤ ctx.height)
    (hw : 1 ≤ w) (hh : 1 ≤ h) (hW : 0 ≤ ctx.width)
    (hW32 : ctx.width < 4294967296) (hH32 : ctx.height < 4294967296) :
    activeBuffer (rpi_display_fill_rect ctx x y w h color).2 i =
      if ∃ row < h.toNat, ∃ col < w.toNat, (i : Int) = (y + row) * ctx.width + (x + col)
      then color % 65536 else activeBuffer ctx i := by
  unfold rpi_display_fill_rect
  rw [clipRect_inbounds _ _ _ _ _ _ hx hy (by omega) (by omega) hxw hyh hW32 hH32]
  dsimp only
  rw [if_neg (by omega)]
  dsimp only
  rw [activeBuffer_mark_dirty_rect, activeBuffer_setActiveBuffer,
    fill_fold_apply _ _ _ _ _ _ _ _ hx hy hW]

/-- C1 (amended): in the double-buffered scenario
`clear(BLACK); fill_rect(10,10,100,50,RED); refresh(); refresh()`:
the drawing lands in the back buffer (BLACK everywhere except RED on
`(10,10)-(109,59)`); but the first refresh — clear having marked the
full screen dirty — transfers the full-screen rectangle `(0,0,320,480)`,
and its payload is the pre-swap front buffer `fb` (the buffer swap happens
before the transfer, and the transfer reads the `backbuffer` pointer,
which then holds the old front buffer), so the drawn content is not
transmitted; the dirty region is cleared; and the second refresh is not a
no-op: it transfers the full screen again, this time with the drawn
content. -/
theorem end_to_end_refresh_amended :
    ∀ fb bb : Nat → Nat,
      (c1Refresh1 fb bb).1 = RPI_DISPLAY_OK ∧
      (c1Refresh1 fb bb).2.2.trace =
        [.cmd ILI9486L_CASET, .data [0, 0, 1, 63], .cmd ILI9486L_PASET, .data [0, 0, 1, 223],
         .cmd ILI9486L_RAMWR,
         .data (rectBytes fb DISPLAY_WIDTH 0 0 DISPLAY_WIDTH DISPLAY_HEIGHT)] ∧
      has_dirty_rect (c1Refresh1 fb bb).2.1 = false ∧
      (c1Refresh2 fb bb).1 = RPI_DISPLAY_OK ∧
      (c1Refresh2 fb bb).2.2.trace =
        [.cmd ILI9486L_CASET, .data [0, 0, 1, 63], .cmd ILI9486L_PASET, .data [0, 0, 1, 223],
         .cmd ILI9486L_RAMWR,
         .data (rectBytes (c1Drawn fb bb).backbuffer DISPLAY_WIDTH 0 0
           DISPLAY_WIDTH DISPLAY_HEIGHT)] ∧
      ∀ px py : Int, 0 ≤ px → px < 320 → 0 ≤ py → py < 480 →
        (c1Drawn fb bb).backbuffer ((py * 320 + px).toNat) =
          if 10 ≤ px ∧ px < 110 ∧ 10 ≤ py ∧ py < 60 then COLOR_RED else COLOR_BLACK := by
  intro fb bb
  refine ⟨rfl, c1_trace1_eq fb bb, rfl, rfl, c1_trace2_eq fb bb, ?_⟩
  intro px py hx0 hx1 hy0 hy1
  have hback : (c1Drawn fb bb).backbuffer = activeBuffer (c1Drawn fb bb) := by
    unfold activeBuffer
    rw [if_pos (show (c1Drawn fb bb).double_buffer_enabled = true from rfl)]
  rw [hback]
  show activeBuffer (rpi_display_fill_rect (rpi_display_clear (c1Init fb bb) COLOR_BLACK).2
    10 10 100 50 COLOR_RED).2 ((py * 320 + px).toNat) = _
  have hW : (rpi_display_clear (c1Init fb bb) COLOR_BLACK).2.width = 320 := rfl
  have hH : (rpi_display_clear (c1Init fb bb) COLOR_BLACK).2.height = 480 := rfl
  rw [fill_rect_apply _ 10 10 100 50 _ _ (by omega) (by omega) (by omega) (by omega)
    (by omega) (by omega) (by omega) (by rw [hW]; omega) (by rw [hH]; omega)]
  rw [hW, clear_apply]
  by_cases hin : 10 ≤ px ∧ px < 110 ∧ 10 ≤ py ∧ py < 60
  · rw [if_pos ?_, if_pos hin]
    · norm_num [COLOR_RED]
    · exact ⟨(py - 10).toNat, by omega, (px - 10).toNat, by omega, by omega⟩
  · rw [if_neg ?_, if_neg hin]
    · rw [show ((c1Init fb bb).width * (c1Init fb bb).height).toNat = 153600 from rfl,
        if_pos (by omega)]
      norm_num [COLOR_BLACK]
    · rintro ⟨row, hr, col, hc, hceq⟩
      exact hin (by omega)

theorem end_to_end_refresh_amended_witness :
    (c1Refresh1 (fun _ => 0x07E0) (fun _ => 0)).1 = RPI_DISPLAY_OK ∧
    (c1Drawn (fun _ => 0x07E0) (fun _ => 0)).backbuffer (((10 : Int) * 320 + 10).toNat) =
      COLOR_RED ∧
    (c1Drawn (fun _ => 0x07E0) (fun _ => 0)).backbuffer (((0 : Int) * 320 + 0).toNat) =
      COLOR_BLACK := by
  refine ⟨(end_to_end_refresh_amended (fun _ => 0x07E0) (fun _ => 0)).1, ?_, ?_⟩
  · have h := (end_to_end_refresh_amended (fun _ => 0x07E0) (fun _ => 0)).2.2.2.2.2
      10 10 (by decide) (by decide) (by decide) (by decide)
    simpa using h
  · have h := (end_to_end_refresh_amended (fun _ => 0x07E0) (fun _ => 0)).2.2.2.2.2
      0 0 (by decide) (by decide) (by decide) (by decide)
    simpa using h

/-! ## C3: error behaviour of refresh -/

/-- C3, counterexample: with a non-empty dirty region `(5,5)-(14,14)` and a
bus whose transfers all fail, `refresh_display` returns the transport error
— but the dirty-region bounds are cleared (`-1`) instead of being left
unchanged, refuting "all in-memory buffer state — including the
dirty-region bounds — is left unchanged". -/
theorem refresh_error_dirty_cleared_counterexample :
    (ili9486l_refresh_display
        (mark_dirty_rect (initCtx true (fun _ => 0) (fun _ => 0)) 5 5 10 10) spiFail).1 =
      RPI_DISPLAY_ERROR_SPI ∧
    (mark_dirty_rect (initCtx true (fun _ => 0) (fun _ => 0)) 5 5 10 10).dirty_x_min = 5 ∧
    (ili9486l_refresh_display
        (mark_dirty_rect (initCtx true (fun _ => 0) (fun _ => 0)) 5 5 10 10)
        spiFail).2.1.dirty_x_min = -1 :=
  ⟨rfl, rfl, rfl⟩

/-- C3 (amended): if the bus transport fails at the start of a refresh of a
non-empty in-bounds dirty region, the transport error is returned to the
caller, the pixel buffers are unchanged and nothing is emitted on the bus —
but the dirty-region bounds are cleared even though the transfer failed
(`refresh_display` clears them unconditionally after the attempt). -/
theorem refresh_error_propagates_buffers_intact :
    ∀ (ctx : Ili9486lCtx) (bus : SpiBus),
      has_dirty_rect ctx = true →
      0 ≤ ctx.dirty_x_min → ctx.dirty_x_min ≤ ctx.dirty_x_max → ctx.dirty_x_max < ctx.width →
      0 ≤ ctx.dirty_y_min → ctx.dirty_y_min ≤ ctx.dirty_y_max → ctx.dirty_y_max < ctx.height →
      ctx.width ≤ 65536 → ctx.height ≤ 65536 →
      bus.okAt bus.count = false →
      (ili9486l_refresh_display ctx bus).1 = RPI_DISPLAY_ERROR_SPI ∧
      (ili9486l_refresh_display ctx bus).2.1.framebuffer = ctx.framebuffer ∧
      (ili9486l_refresh_display ctx bus).2.1.backbuffer = ctx.backbuffer ∧
      (ili9486l_refresh_display ctx bus).2.1.dirty_x_min = -1 ∧
      (ili9486l_refresh_display ctx bus).2.2.trace = bus.trace := by
  intro ctx bus hd h1 h2 h3 h4 h5 h6 hW hH hfail
  have hcux : cuint32 (ctx.dirty_x_min + (ctx.dirty_x_max - ctx.dirty_x_min + 1)) =
      ctx.dirty_x_min + (ctx.dirty_x_max - ctx.dirty_x_min + 1) := by
    unfold cuint32; exact Int.emod_eq_of_lt (by omega) (by omega)
  have hcuy : cuint32 (ctx.dirty_y_min + (ctx.dirty_y_max - ctx.dirty_y_min + 1)) =
      ctx.dirty_y_min + (ctx.dirty_y_max - ctx.dirty_y_min + 1) := by
    unfold cuint32; exact Int.emod_eq_of_lt (by omega) (by omega)
  have hone : ∀ ev, spi_transfer bus ev = (-1, ⟨bus.okAt, bus.count + 1, bus.trace⟩) := by
    intro ev; unfold spi_transfer; rw [hfail]; simp
  unfold ili9486l_refresh_display
  rw [if_pos hd]
  dsimp only
  unfold ili9486l_refresh_rect
  rw [if_neg (by omega)]
  dsimp only
  unfold ili9486l_set_window write_command_data ili9486l_write_command
  rw [hone]
  norm_num
  unfold clear_dirty_rect
  exact ⟨rfl, rfl, rfl⟩

theorem refresh_error_propagates_buffers_intact_witness :
    (ili9486l_refresh_display
        (mark_dirty_rect (initCtx true (fun _ => 0) (fun _ => 0)) 5 5 10 10) spiFail).1 =
      RPI_DISPLAY_ERROR_SPI ∧
    (ili9486l_refresh_display
        (mark_dirty_rect (initCtx true (fun _ => 0) (fun _ => 0)) 5 5 10 10)
        spiFail).2.2.trace = spiFail.trace :=
  ⟨(refresh_error_propagates_buffers_intact
      (mark_dirty_rect (initCtx true (fun _ => 0) (fun _ => 0)) 5 5 10 10) spiFail
      (by decide) (by decide) (by decide) (by decide) (by decide) (by decide) (by decide)
      (by decide) (by decide) (by decide)).1,
   (refresh_error_propagates_buffers_intact
      (mark_dirty_rect (initCtx true (fun _ => 0) (fun _ => 0)) 5 5 10 10) spiFail
      (by decide) (by decide) (by decide) (by decide) (by decide) (by decide) (by decide)
      (by decide) (by decide) (by decide)).2.2.2.2⟩

theorem wire_framing_witness :
    rpi_display_refresh_rect (initCtx false (fun _ => 3) (fun _ => 7)) spiOk 1 2 2 1 =
      (RPI_DISPLAY_OK,
       ⟨fun _ => true, 6,
        [.cmd ILI9486L_CASET, .data [0, 1, 0, 2], .cmd ILI9486L_PASET, .data [0, 2, 0, 2],
         .cmd ILI9486L_RAMWR, .data [0, 3, 0, 3]]⟩) := by
  have h := wire_framing (initCtx false (fun _ => 3) (fun _ => 7)) 1 2 2 1
    (by decide) (by decide) (by decide) (by decide) (by decide) (by decide)
    (by decide) (by decide) (fun _ => (by decide : (3 : Nat) < 65536))
  rw [h]
  rfl

/-! ## C4: the dirty region is the minimal bounding box of all writes

A drawing call between two refreshes is one of the facade primitives; the
coordinates it stores to are collected by `opWrites` (mirroring each
primitive's clipping/bounds checks), and the dirty region is compared with
the bounding box of those coordinates. -/

inductive DrawOp where
  | clear (color : Nat)
  | set_pixel (x y : Int) (color : Nat)
  | fill_rect (x y width height : Int) (color : Nat)
  | draw_line (x0 y0 x1 y1 : Int) (color : Nat)
  | draw_circle (x y radius : Int) (color : Nat)
  | draw_text (x y : Int) (text : List Nat) (color : Nat)
  | copy_buffer (src : Nat → Nat) (x y width height : Int)

def applyOp (ctx : Ili9486lCtx) : DrawOp → Ili9486lCtx
  | .clear c => (rpi_display_clear ctx c).2
  | .set_pixel x y c => (rpi_display_set_pixel ctx x y c).2
  | .fill_rect x y w h c => (rpi_display_fill_rect ctx x y w h c).2
  | .draw_line x0 y0 x1 y1 c => (rpi_display_draw_line ctx x0 y0 x1 y1 c).2
  | .draw_circle x y r c => (rpi_display_draw_circle ctx x y r c).2
  | .draw_text x y t c => (rpi_display_draw_text ctx x y t c).2
  | .copy_buffer s x y w h => (rpi_display_copy_buffer ctx s x y w h).2

def applyOps (ctx : Ili9486lCtx) (ops : List DrawOp) : Ili9486lCtx :=
  ops.foldl applyOp ctx

/-- The coordinates of a `w × h` rectangle at `(x, y)`, row-major. -/
def rectPoints (x y : Int) (w h : Nat) : List (Int × Int) :=
  (List.range h).flatMap fun (row : Nat) =>
    (List.range w).map fun (col : Nat) => (x + (col : Int), y + (row : Int))

/-- The bounds check of `rpi_display_set_pixel`, as a predicate on points. -/
def inB (W H : Int) (p : Int × Int) : Bool :=
  decide (¬ (p.1 < 0 ∨ p.1 ≥ W ∨ p.2 < 0 ∨ p.2 ≥ H))

/-- The pixel coordinates written by one drawing call (mirroring each
primitive's clipping and bounds checks; `draw_line`, `draw_circle` and
`draw_text` write each of their plotted points through `set_pixel`, which
drops the out-of-bounds ones). -/
def opWrites (ctx : Ili9486lCtx) : DrawOp → List (Int × Int)
  | .clear _ => rectPoints 0 0 ctx.width.toNat ctx.height.toNat
  | .set_pixel x y _ =>
      if x < 0 ∨ x ≥ ctx.width ∨ y < 0 ∨ y ≥ ctx.height then [] else [(x, y)]
  | .fill_rect x y w h _ =>
      match clipRect ctx.width ctx.height x y w h with
      | (x, y, w, h) => if w ≤ 0 ∨ h ≤ 0 then [] else rectPoints x y w.toNat h.toNat
  | .draw_line x0 y0 x1 y1 _ => (linePoints x0 y0 x1 y1).filter (inB ctx.width ctx.height)
  | .draw_circle x y r _ => (circlePoints x y r).filter (inB ctx.width ctx.height)
  | .draw_text x y t _ => (textSteps x x y t).filter (inB ctx.width ctx.height)
  | .copy_buffer _ x y w h =>
      match clipRect ctx.width ctx.height x y w h with
      | (x, y, w, h) => if w ≤ 0 ∨ h ≤ 0 then [] else rectPoints x y w.toNat h.toNat

def writesOf (ctx : Ili9486lCtx) : List DrawOp → List (Int × Int)
  | [] => []
  | op :: ops => opWrites ctx op ++ writesOf (applyOp ctx op) ops

/-- The dirty-region fields, abstracted: `none` is the `-1` empty
sentinel. -/
structure DirtyRect where
  x_min : Int
  y_min : Int
  x_max : Int
  y_max : Int
  deriving DecidableEq

def dirtyD (ctx : Ili9486lCtx) : Option DirtyRect :=
  if ctx.dirty_x_min = -1 then none
  else some ⟨ctx.dirty_x_min, ctx.dirty_y_min, ctx.dirty_x_max, ctx.dirty_y_max⟩

def joinD : Option DirtyRect → DirtyRect → DirtyRect
  | none, r => r
  | some q, r => ⟨min q.x_min r.x_min, min q.y_min r.y_min,
                  max q.x_max r.x_max, max q.y_max r.y_max⟩

def ptR (p : Int × Int) : DirtyRect := ⟨p.1, p.2, p.1, p.2⟩

/-- Fold a list of written points into a dirty region, one `mark` at a
time. -/
def bboxFold (d : Option DirtyRect) (ws : List (Int × Int)) : Option DirtyRect :=
  ws.foldl (fun d p => some (joinD d (ptR p))) d

theorem bboxFold_append (d : Option DirtyRect) (l1 l2 : List (Int × Int)) :
    bboxFold d (l1 ++ l2) = bboxFold (bboxFold d l1) l2 := by
  unfold bboxFold
  rw [List.foldl_append]

theorem joinD_join (d : Option DirtyRect) (q r : DirtyRect) :
    joinD (some (joinD d q)) r = joinD d (joinD (some q) r) := by
  cases d with
  | none => rfl
  | some s =>
    simp only [joinD, DirtyRect.mk.injEq]
    refine ⟨?_, ?_, ?_, ?_⟩ <;> first | trivial | omega

theorem bboxFold_shift (ws : List (Int × Int)) :
    ∀ d : Option DirtyRect,
      bboxFold d ws =
        (match bboxFold none ws with
         | none => d
         | some r => some (joinD d r)) := by
  induction ws with
  | nil => intro d; rfl
  | cons p t ih =>
    intro d
    show bboxFold (some (joinD d (ptR p))) t = _
    rw [ih (some (joinD d (ptR p)))]
    have hnone : bboxFold none (p :: t) = bboxFold (some (ptR p)) t := rfl
    rw [hnone, ih (some (ptR p))]
    cases hbt : bboxFold none t with
    | none => rfl
    | some r => simp only [joinD_join]

theorem bboxFold_ne_none (q : DirtyRect) (ws : List (Int × Int)) :
    ∃ r, bboxFold (some q) ws = some r := by
  rw [bboxFold_shift]
  cases bboxFold none ws with
  | none => exact ⟨q, rfl⟩
  | some r => exact ⟨joinD (some q) r, rfl⟩

theorem bboxFold_none_iff (ws : List (Int × Int)) :
    bboxFold none ws = none ↔ ws = [] := by
  cases ws with
  | nil => simp [bboxFold]
  | cons p t =>
    have h : bboxFold none (p :: t) = bboxFold (some (ptR p)) t := rfl
    rw [h]
    obtain ⟨r, hr⟩ := bboxFold_ne_none (ptR p) t
    simp [hr]

theorem bboxFold_mono (ws : List (Int × Int)) :
    ∀ q r, bboxFold (some q) ws = some r →
      r.x_min ≤ q.x_min ∧ r.y_min ≤ q.y_min ∧ q.x_max ≤ r.x_max ∧ q.y_max ≤ r.y_max := by
  induction ws with
  | nil => intro q r h; injection h with h; subst h; omega
  | cons p t ih =>
    intro q r h
    have h2 : bboxFold (some (joinD (some q) (ptR p))) t = some r := h
    have := ih (joinD (some q) (ptR p)) r h2
    simp only [joinD] at this
    omega

theorem bboxFold_covers (ws : List (Int × Int)) :
    ∀ d r, bboxFold d ws = some r →
      ∀ p ∈ ws, r.x_min ≤ p.1 ∧ p.1 ≤ r.x_max ∧ r.y_min ≤ p.2 ∧ p.2 ≤ r.y_max := by
  induction ws with
  | nil => intro d r _ p hp; cases hp
  | cons a t ih =>
    intro d r h p hp
    have h2 : bboxFold (some (joinD d (ptR a))) t = some r := h
    rcases List.mem_cons.1 hp with hpa | hpt
    · have hm := bboxFold_mono t (joinD d (ptR a)) r h2
      rw [hpa]
      cases d <;> simp only [joinD, ptR] at hm <;> omega
    · exact ih (some (joinD d (ptR a))) r h2 p hpt

theorem bboxFold_attained (ws : List (Int × Int)) :
    ∀ d r, bboxFold d ws = some r →
      ((∃ q, d = some q ∧ r.x_min = q.x_min) ∨ (∃ p ∈ ws, r.x_min = p.1)) ∧
      ((∃ q, d = some q ∧ r.y_min = q.y_min) ∨ (∃ p ∈ ws, r.y_min = p.2)) ∧
      ((∃ q, d = some q ∧ r.x_max = q.x_max) ∨ (∃ p ∈ ws, r.x_max = p.1)) ∧
      ((∃ q, d = some q ∧ r.y_max = q.y_max) ∨ (∃ p ∈ ws, r.y_max = p.2)) := by
  induction ws with
  | nil =>
    intro d r h
    exact ⟨Or.inl ⟨r, h, rfl⟩, Or.inl ⟨r, h, rfl⟩, Or.inl ⟨r, h, rfl⟩, Or.inl ⟨r, h, rfl⟩⟩
  | cons a t ih =>
    intro d r h
    have h2 : bboxFold (some (joinD d (ptR a))) t = some r := h
    obtain ⟨hx, hy, hX, hY⟩ := ih (some (joinD d (ptR a))) r h2
    refine ⟨?_, ?_, ?_, ?_⟩
    · rcases hx with ⟨q, hq, hrq⟩ | ⟨p, hp, hrp⟩
      · injection hq with hq; subst hq
        cases d with
        | none => exact Or.inr ⟨a, List.mem_cons_self a t, hrq⟩
        | some s =>
          simp only [joinD, ptR] at hrq
          rcases le_or_lt s.x_min a.1 with hle | hlt
          · exact Or.inl ⟨s, rfl, by omega⟩
          · exact Or.inr ⟨a, List.mem_cons_self a t, by omega⟩
      · exact Or.inr ⟨p, List.mem_cons_of_mem a hp, hrp⟩
    · rcases hy with ⟨q, hq, hrq⟩ | ⟨p, hp, hrp⟩
      · injection hq with hq; subst hq
        cases d with
        | none => exact Or.inr ⟨a, List.mem_cons_self a t, hrq⟩
        | some s =>
          simp only [joinD, ptR] at hrq
          rcases le_or_lt s.y_min a.2 with hle | hlt
          · exact Or.inl ⟨s, rfl, by omega⟩
          · exact Or.inr ⟨a, List.mem_cons_self a t, by omega⟩
      · exact Or.inr ⟨p, List.mem_cons_of_mem a hp, hrp⟩
    · rcases hX with ⟨q, hq, hrq⟩ | ⟨p, hp, hrp⟩
      · injection hq with hq; subst hq
        cases d with
        | none => exact Or.inr ⟨a, List.mem_cons_self a t, hrq⟩
        | some s =>
          simp only [joinD, ptR] at hrq
          rcases le_or_lt a.1 s.x_max with hle | hlt
          · exact Or.inl ⟨s, rfl, by omega⟩
          · exact Or.inr ⟨a, List.mem_cons_self a t, by omega⟩
      · exact Or.inr ⟨p, List.mem_cons_of_mem a hp, hrp⟩
    · rcases hY with ⟨q, hq, hrq⟩ | ⟨p, hp, hrp⟩
      · injection hq with hq; subst hq
        cases d with
        | none => exact Or.inr ⟨a, List.mem_cons_self a t, hrq⟩
        | some s =>
          simp only [joinD, ptR] at hrq
          rcases le_or_lt a.2 s.y_max with hle | hlt
          · exact Or.inl ⟨s, rfl, by omega⟩
          · exact Or.inr ⟨a, List.mem_cons_self a t, by omega⟩
      · exact Or.inr ⟨p, List.mem_cons_of_mem a hp, hrp⟩

theorem bboxFold_xmin_nonneg (ws : List (Int × Int)) :
    ∀ d : Option DirtyRect,
      (∀ q, d = some q → 0 ≤ q.x_min) → (∀ p ∈ ws, 0 ≤ p.1) →
      ∀ r, bboxFold d ws = some r → 0 ≤ r.x_min := by
  induction ws with
  | nil => intro d hd _ r h; exact hd r h
  | cons a t ih =>
    intro d hd hws r h
    have h2 : bboxFold (some (joinD d (ptR a))) t = some r := h
    refine ih (some (joinD d (ptR a))) ?_ (fun p hp => hws p (List.mem_cons_of_mem a hp)) r h2
    intro q hq
    injection hq with hq; subst hq
    have ha : 0 ≤ a.1 := hws a (List.mem_cons_self a t)
    cases d with
    | none => simpa [joinD, ptR] using ha
    | some s =>
      have hs : 0 ≤ s.x_min := hd s rfl
      simp only [joinD, ptR]
      omega


theorem dirtyD_setActiveBuffer (ctx : Ili9486lCtx) (b : Nat → Nat) :
    dirtyD (setActiveBuffer ctx b) = dirtyD ctx := by
  unfold dirtyD
  rw [setActiveBuffer_dirty_x_min, setActiveBuffer_dirty_y_min, setActiveBuffer_dirty_x_max,
    setActiveBuffer_dirty_y_max]

/-- `mark_dirty_rect` in terms of the abstract dirty region: a join with the
marked rectangle (for a mark with `0 ≤ x`, which every drawing call
provides). -/
theorem dirtyD_mark (ctx : Ili9486lCtx) (x y w h : Int)
    (hen : ctx.dirty_rect_enabled = true) (hx : 0 ≤ x)
    (hwf : ctx.dirty_x_min = -1 ∨ 0 ≤ ctx.dirty_x_min) :
    dirtyD (mark_dirty_rect ctx x y w h) =
      some (joinD (dirtyD ctx) ⟨x, y, x + w - 1, y + h - 1⟩) := by
  unfold mark_dirty_rect
  rw [if_neg (by simp [hen])]
  dsimp only
  by_cases hd : ctx.dirty_x_min = -1
  · rw [if_pos hd]
    unfold dirtyD
    dsimp only
    rw [if_neg (by omega), if_pos hd]
    rfl
  · rw [if_neg hd]
    unfold dirtyD
    dsimp only
    rw [if_neg ?_, if_neg hd]
    · simp only [joinD, Option.some.injEq, DirtyRect.mk.injEq]
      refine ⟨by split <;> omega, by split <;> omega, by split <;> omega, by split <;> omega⟩
    · rcases hwf with h | h
      · exact absurd h hd
      · split <;> omega

theorem dirty_x_min_of_some (s : Ili9486lCtx) (r : DirtyRect) (h : dirtyD s = some r) :
    s.dirty_x_min = r.x_min := by
  unfold dirtyD at h
  split at h
  · cases h
  · injection h with h
    rw [← h]

theorem set_pixel_out (ctx : Ili9486lCtx) (x y : Int) (c : Nat)
    (hg : x < 0 ∨ x ≥ ctx.width ∨ y < 0 ∨ y ≥ ctx.height) :
    (rpi_display_set_pixel ctx x y c).2 = ctx := by
  unfold rpi_display_set_pixel
  rw [if_pos hg]

/-- `set_pixel` in one step: geometry preserved, dirty region joined with
the written point when in bounds. -/
theorem set_pixel_step (ctx : Ili9486lCtx) (x y : Int) (c : Nat)
    (hen : ctx.dirty_rect_enabled = true)
    (hwf : ctx.dirty_x_min = -1 ∨ 0 ≤ ctx.dirty_x_min) :
    (rpi_display_set_pixel ctx x y c).2.width = ctx.width ∧
    (rpi_display_set_pixel ctx x y c).2.height = ctx.height ∧
    (rpi_display_set_pixel ctx x y c).2.dirty_rect_enabled = true ∧
    dirtyD (rpi_display_set_pixel ctx x y c).2 =
      bboxFold (dirtyD ctx)
        (if x < 0 ∨ x ≥ ctx.width ∨ y < 0 ∨ y ≥ ctx.height then [] else [(x, y)]) := by
  by_cases hg : x < 0 ∨ x ≥ ctx.width ∨ y < 0 ∨ y ≥ ctx.height
  · rw [set_pixel_out ctx x y c hg, if_pos hg]
    exact ⟨rfl, rfl, hen, rfl⟩
  · unfold rpi_display_set_pixel
    rw [if_neg hg]
    dsimp only
    refine ⟨?_, ?_, ?_, ?_⟩
    · rw [mark_dirty_rect_width, setActiveBuffer_width]
    · rw [mark_dirty_rect_height, setActiveBuffer_height]
    · rw [mark_dirty_rect_enabled, setActiveBuffer_enabled, hen]
    · rw [dirtyD_mark _ _ _ _ _ (by rw [setActiveBuffer_enabled]; exact hen) (by omega)
        (by rw [setActiveBuffer_dirty_x_min]; exact hwf), dirtyD_setActiveBuffer, if_neg hg]
      show some (joinD (dirtyD ctx) ⟨x, y, x + 1 - 1, y + 1 - 1⟩) =
        some (joinD (dirtyD ctx) (ptR (x, y)))
      rw [show x + 1 - 1 = x by ring, show y + 1 - 1 = y by ring]
      rfl

/-- Plotting a point list through `set_pixel`: the dirty region joins
exactly the in-bounds points. -/
theorem drawPoints_spec (pts : List (Int × Int)) :
    ∀ (ctx : Ili9486lCtx) (c : Nat),
      ctx.dirty_rect_enabled = true →
      (ctx.dirty_x_min = -1 ∨ 0 ≤ ctx.dirty_x_min) →
      (drawPoints ctx pts c).width = ctx.width ∧
      (drawPoints ctx pts c).height = ctx.height ∧
      (drawPoints ctx pts c).dirty_rect_enabled = true ∧
      dirtyD (drawPoints ctx pts c) =
        bboxFold (dirtyD ctx) (pts.filter (inB ctx.width ctx.height)) := by
  induction pts with
  | nil => intro ctx c hen hwf; exact ⟨rfl, rfl, hen, rfl⟩
  | cons p t ih =>
    intro ctx c hen hwf
    have hshow : drawPoints ctx (p :: t) c =
        drawPoints (rpi_display_set_pixel ctx p.1 p.2 c).2 t c := rfl
    by_cases hg : p.1 < 0 ∨ p.1 ≥ ctx.width ∨ p.2 < 0 ∨ p.2 ≥ ctx.height
    · have hf : inB ctx.width ctx.height p = false := by
        unfold inB
        simp only [decide_eq_false_iff_not, not_not]
        exact hg
      rw [hshow, set_pixel_out ctx p.1 p.2 c hg]
      obtain ⟨hw, hh, hen2, hd⟩ := ih ctx c hen hwf
      refine ⟨hw, hh, hen2, ?_⟩
      rw [hd, List.filter_cons, hf]
      simp only [Bool.false_eq_true, if_false]
    · obtain ⟨hw1, hh1, hen1, hd1⟩ := set_pixel_step ctx p.1 p.2 c hen hwf
      rw [if_neg hg] at hd1
      have hd1s : dirtyD (rpi_display_set_pixel ctx p.1 p.2 c).2 =
          some (joinD (dirtyD ctx) (ptR (p.1, p.2))) := hd1
      have hwf2 : (rpi_display_set_pixel ctx p.1 p.2 c).2.dirty_x_min = -1 ∨
          0 ≤ (rpi_display_set_pixel ctx p.1 p.2 c).2.dirty_x_min := by
        right
        rw [dirty_x_min_of_some _ _ hd1s]
        cases hdc : dirtyD ctx with
        | none =>
          simp only [joinD, ptR]
          omega
        | some s =>
          have hs : ctx.dirty_x_min = s.x_min := dirty_x_min_of_some _ _ hdc
          have hxm : 0 ≤ ctx.dirty_x_min := by
            rcases hwf with h | h
            · exfalso
              unfold dirtyD at hdc
              rw [if_pos h] at hdc
              cases hdc
            · exact h
          simp only [joinD, ptR]
          omega
      obtain ⟨hw2, hh2, hen2, hd2⟩ := ih (rpi_display_set_pixel ctx p.1 p.2 c).2 c hen1 hwf2
      rw [hshow]
      refine ⟨by rw [hw2, hw1], by rw [hh2, hh1], hen2, ?_⟩
      rw [hd2, hw1, hh1, hd1s]
      have hfp : inB ctx.width ctx.height p = true := by
        unfold inB
        simp only [decide_eq_true_eq]
        exact hg
      rw [List.filter_cons, hfp]
      rfl

theorem row_bbox (x Y : Int) (w : Nat) (hw : 1 ≤ w) :
    bboxFold none ((List.range w).map fun (col : Nat) => (x + (col : Int), Y)) =
      some ⟨x, Y, x + w - 1, Y⟩ := by
  induction w with
  | zero => omega
  | succ m ih =>
    rcases Nat.eq_zero_or_pos m with h0 | hpos
    · subst h0
      show bboxFold none ((List.range 1).map fun (col : Nat) => (x + (col : Int), Y)) = _
      rw [show List.range 1 = [0] from rfl]
      simp only [List.map_cons, List.map_nil]
      show some (joinD none (ptR (x + ((0 : Nat) : Int), Y))) = _
      simp only [joinD, ptR, Option.some.injEq, DirtyRect.mk.injEq]
      refine ⟨?_, ?_, ?_, ?_⟩ <;> first | trivial | omega
    · rw [List.range_succ, List.map_append, bboxFold_append, ih hpos]
      simp only [List.map_cons, List.map_nil]
      show some (joinD (some ⟨x, Y, x + (m : Int) - 1, Y⟩) (ptR (x + (m : Int), Y))) = _
      simp only [joinD, ptR, Option.some.injEq, DirtyRect.mk.injEq]
      refine ⟨?_, ?_, ?_, ?_⟩ <;> first | trivial | omega

theorem rect_bbox (x y : Int) (w h : Nat) (hw : 1 ≤ w) (hh : 1 ≤ h) :
    bboxFold none (rectPoints x y w h) = some ⟨x, y, x + w - 1, y + h - 1⟩ := by
  induction h with
  | zero => omega
  | succ m ih =>
    rcases Nat.eq_zero_or_pos m with h0 | hpos
    · subst h0
      show bboxFold none ((List.range 1).flatMap fun (row : Nat) =>
        (List.range w).map fun (col : Nat) => (x + (col : Int), y + (row : Int))) = _
      rw [show List.range 1 = [0] from rfl]
      simp only [List.flatMap_cons, List.flatMap_nil, List.append_nil]
      rw [row_bbox x (y + ((0 : Nat) : Int)) w hw]
      simp only [Option.some.injEq, DirtyRect.mk.injEq]
      refine ⟨?_, ?_, ?_, ?_⟩ <;> first | trivial | omega
    · have hsplit : rectPoints x y w (m + 1) = rectPoints x y w m ++
          ((List.range w).map fun (col : Nat) => (x + (col : Int), y + (m : Int))) := by
        unfold rectPoints
        rw [List.range_succ, List.flatMap_append]
        simp only [List.flatMap_cons, List.flatMap_nil, List.append_nil]
      rw [hsplit, bboxFold_append, ih hpos, bboxFold_shift, row_bbox x (y + (m : Int)) w hw]
      show some (joinD (some ⟨x, y, x + (w : Int) - 1, y + (m : Int) - 1⟩)
        ⟨x, y + (m : Int), x + (w : Int) - 1, y + (m : Int)⟩) = _
      simp only [joinD, Option.some.injEq, DirtyRect.mk.injEq]
      refine ⟨?_, ?_, ?_, ?_⟩ <;> first | trivial | omega

/-- Folding the points of a `w × h` rectangle (with positive `Int`
dimensions) marks exactly that rectangle. -/
theorem bboxFold_rectPoints (d : Option DirtyRect) (x y w h : Int)
    (hw : 1 ≤ w) (hh : 1 ≤ h) :
    bboxFold d (rectPoints x y w.toNat h.toNat) =
      some (joinD d ⟨x, y, x + w - 1, y + h - 1⟩) := by
  rw [bboxFold_shift, rect_bbox x y w.toNat h.toNat (by omega) (by omega)]
  show some (joinD d ⟨x, y, x + (w.toNat : Int) - 1, y + (h.toNat : Int) - 1⟩) = _
  rw [Int.toNat_of_nonneg (by omega : (0 : Int) ≤ w),
    Int.toNat_of_nonneg (by omega : (0 : Int) ≤ h)]

theorem rectPoints_mem (x y : Int) (w h : Nat) (p : Int × Int)
    (hp : p ∈ rectPoints x y w h) : x ≤ p.1 ∧ y ≤ p.2 := by
  unfold rectPoints at hp
  rw [List.mem_flatMap] at hp
  obtain ⟨row, _, hp⟩ := hp
  rw [List.mem_map] at hp
  obtain ⟨col, _, rfl⟩ := hp
  refine ⟨?_, ?_⟩ <;> dsimp only <;> omega

theorem clipRect_nonneg (W H x y w h : Int) :
    0 ≤ (clipRect W H x y w h).1 ∧ 0 ≤ (clipRect W H x y w h).2.1 := by
  unfold clipRect
  by_cases hx : x < 0 <;> by_cases hy : y < 0
  · simp only [if_pos hx, if_pos hy]
    exact ⟨le_refl 0, le_refl 0⟩
  · simp only [if_pos hx, if_neg hy]
    exact ⟨le_refl 0, (by omega : 0 ≤ y)⟩
  · simp only [if_neg hx, if_pos hy]
    exact ⟨(by omega : 0 ≤ x), le_refl 0⟩
  · simp only [if_neg hx, if_neg hy]
    exact ⟨(by omega : 0 ≤ x), (by omega : 0 ≤ y)⟩

theorem opWrites_nonneg (ctx : Ili9486lCtx) (op : DrawOp) :
    ∀ p ∈ opWrites ctx op, 0 ≤ p.1 := by
  cases op with
  | clear c =>
    intro p hp
    exact le_trans le_rfl (rectPoints_mem 0 0 _ _ p hp).1
  | set_pixel x y c =>
    intro p hp
    have hp2 : p ∈ (if x < 0 ∨ x ≥ ctx.width ∨ y < 0 ∨ y ≥ ctx.height
        then ([] : List (Int × Int)) else [(x, y)]) := hp
    split at hp2
    · cases hp2
    · obtain rfl := List.mem_singleton.1 hp2
      dsimp only
      omega
  | fill_rect x y w h c =>
    intro p hp
    rcases hcl : clipRect ctx.width ctx.height x y w h with ⟨x1, y1, w1, h1⟩
    have hp2 : p ∈ (match clipRect ctx.width ctx.height x y w h with
      | (x, y, w, h) =>
        if w ≤ 0 ∨ h ≤ 0 then ([] : List (Int × Int)) else rectPoints x y w.toNat h.toNat) := hp
    rw [hcl] at hp2
    dsimp only at hp2
    split at hp2
    · cases hp2
    · have hx1 : 0 ≤ x1 := by
        have := (clipRect_nonneg ctx.width ctx.height x y w h).1
        rw [hcl] at this
        exact this
      exact le_trans hx1 (rectPoints_mem x1 y1 _ _ p hp2).1
  | copy_buffer s x y w h =>
    intro p hp
    rcases hcl : clipRect ctx.width ctx.height x y w h with ⟨x1, y1, w1, h1⟩
    have hp2 : p ∈ (match clipRect ctx.width ctx.height x y w h with
      | (x, y, w, h) =>
        if w ≤ 0 ∨ h ≤ 0 then ([] : List (Int × Int)) else rectPoints x y w.toNat h.toNat) := hp
    rw [hcl] at hp2
    dsimp only at hp2
    split at hp2
    · cases hp2
    · have hx1 : 0 ≤ x1 := by
        have := (clipRect_nonneg ctx.width ctx.height x y w h).1
        rw [hcl] at this
        exact this
      exact le_trans hx1 (rectPoints_mem x1 y1 _ _ p hp2).1
  | draw_line x0 y0 x1 y1 c =>
    intro p hp
    have := (List.mem_filter.1 hp).2
    unfold inB at this
    rw [decide_eq_true_eq] at this
    omega
  | draw_circle x y r c =>
    intro p hp
    have := (List.mem_filter.1 hp).2
    unfold inB at this
    rw [decide_eq_true_eq] at this
    omega
  | draw_text x y t c =>
    intro p hp
    have := (List.mem_filter.1 hp).2
    unfold inB at this
    rw [decide_eq_true_eq] at this
    omega

theorem snd_ite (c : Prop) [Decidable c] (a b : Int × Ili9486lCtx) :
    (if c then a else b).2 = if c then a.2 else b.2 := by
  split <;> rfl

theorem clear_shape (ctx : Ili9486lCtx) (c : Nat) :
    ∃ B : Nat → Nat,
      (rpi_display_clear ctx c).2 =
        mark_dirty_rect (setActiveBuffer ctx B) 0 0 (setActiveBuffer ctx B).width
          (setActiveBuffer ctx B).height :=
  ⟨_, rfl⟩

theorem fill_shape (ctx : Ili9486lCtx) (x y w h : Int) (c : Nat) :
    ∃ B : Nat → Nat,
      (rpi_display_fill_rect ctx x y w h c).2 =
        (match clipRect ctx.width ctx.height x y w h with
         | (x1, y1, w1, h1) =>
           if w1 ≤ 0 ∨ h1 ≤ 0 then ctx
           else mark_dirty_rect (setActiveBuffer ctx B) x1 y1 w1 h1) := by
  unfold rpi_display_fill_rect
  rcases hcl : clipRect ctx.width ctx.height x y w h with ⟨x1, y1, w1, h1⟩
  dsimp only
  rw [snd_ite]
  exact ⟨_, rfl⟩

theorem copy_shape (ctx : Ili9486lCtx) (buf : Nat → Nat) (x y w h : Int) :
    ∃ B : Nat → Nat,
      (rpi_display_copy_buffer ctx buf x y w h).2 =
        (match clipRect ctx.width ctx.height x y w h with
         | (x1, y1, w1, h1) =>
           if w1 ≤ 0 ∨ h1 ≤ 0 then ctx
           else mark_dirty_rect (setActiveBuffer ctx B) x1 y1 w1 h1) := by
  unfold rpi_display_copy_buffer clipRect
  by_cases hx : x < 0 <;> by_cases hy : y < 0
  · simp only [if_pos hx, if_pos hy]
    rw [snd_ite]
    exact ⟨_, rfl⟩
  · simp only [if_pos hx, if_neg hy]
    rw [snd_ite]
    exact ⟨_, rfl⟩
  · simp only [if_neg hx, if_pos hy]
    rw [snd_ite]
    exact ⟨_, rfl⟩
  · simp only [if_neg hx, if_neg hy]
    rw [snd_ite]
    exact ⟨_, rfl⟩

theorem dirty_x_min_of_none (s : Ili9486lCtx) (h : dirtyD s = none) :
    s.dirty_x_min = -1 := by
  unfold dirtyD at h
  by_cases hc : s.dirty_x_min = -1
  · exact hc
  · rw [if_neg hc] at h
    cases h

theorem seed_nonneg (s : Ili9486lCtx) (hwf : s.dirty_x_min = -1 ∨ 0 ≤ s.dirty_x_min) :
    ∀ q, dirtyD s = some q → 0 ≤ q.x_min := by
  intro q hq
  have hx := dirty_x_min_of_some s q hq
  rcases hwf with h | h
  · exfalso
    unfold dirtyD at hq
    rw [if_pos h] at hq
    cases hq
  · omega

/-- One drawing call in one step: geometry and dirty-tracking enablement are
preserved, and the dirty region after the call is the fold of the call's
written coordinates into the region before the call. -/
theorem op_step (ctx : Ili9486lCtx) (op : DrawOp)
    (hen : ctx.dirty_rect_enabled = true)
    (hwf : ctx.dirty_x_min = -1 ∨ 0 ≤ ctx.dirty_x_min)
    (hW : 1 ≤ ctx.width) (hH : 1 ≤ ctx.height) :
    (applyOp ctx op).width = ctx.width ∧
    (applyOp ctx op).height = ctx.height ∧
    (applyOp ctx op).dirty_rect_enabled = true ∧
    dirtyD (applyOp ctx op) = bboxFold (dirtyD ctx) (opWrites ctx op) := by
  cases op with
  | clear c =>
    obtain ⟨B, hB⟩ := clear_shape ctx c
    rw [show applyOp ctx (DrawOp.clear c) = (rpi_display_clear ctx c).2 from rfl, hB]
    refine ⟨?_, ?_, ?_, ?_⟩
    · rw [mark_dirty_rect_width, setActiveBuffer_width]
    · rw [mark_dirty_rect_height, setActiveBuffer_height]
    · rw [mark_dirty_rect_enabled, setActiveBuffer_enabled, hen]
    · rw [dirtyD_mark _ _ _ _ _ (by rw [setActiveBuffer_enabled]; exact hen) le_rfl
        (by rw [setActiveBuffer_dirty_x_min]; exact hwf)]
      rw [dirtyD_setActiveBuffer, setActiveBuffer_width, setActiveBuffer_height]
      rw [show opWrites ctx (DrawOp.clear c) =
        rectPoints 0 0 ctx.width.toNat ctx.height.toNat from rfl]
      rw [bboxFold_rectPoints (dirtyD ctx) 0 0 ctx.width ctx.height hW hH]
  | set_pixel x y c =>
    exact set_pixel_step ctx x y c hen hwf
  | fill_rect x y w h c =>
    obtain ⟨B, hB⟩ := fill_shape ctx x y w h c
    rw [show applyOp ctx (DrawOp.fill_rect x y w h c) =
      (rpi_display_fill_rect ctx x y w h c).2 from rfl, hB]
    rcases hcl : clipRect ctx.width ctx.height x y w h with ⟨x1, y1, w1, h1⟩
    dsimp only
    have how : opWrites ctx (DrawOp.fill_rect x y w h c) =
        if w1 ≤ 0 ∨ h1 ≤ 0 then [] else rectPoints x1 y1 w1.toNat h1.toNat := by
      unfold opWrites
      dsimp only
      rw [hcl]
    by_cases hdeg : w1 ≤ 0 ∨ h1 ≤ 0
    · rw [if_pos hdeg, how, if_pos hdeg]
      exact ⟨rfl, rfl, hen, rfl⟩
    · rw [if_neg hdeg, how, if_neg hdeg]
      have hx1 : 0 ≤ x1 := by
        have := (clipRect_nonneg ctx.width ctx.height x y w h).1
        rw [hcl] at this
        exact this
      refine ⟨?_, ?_, ?_, ?_⟩
      · rw [mark_dirty_rect_width, setActiveBuffer_width]
      · rw [mark_dirty_rect_height, setActiveBuffer_height]
      · rw [mark_dirty_rect_enabled, setActiveBuffer_enabled, hen]
      · rw [dirtyD_mark _ _ _ _ _ (by rw [setActiveBuffer_enabled]; exact hen) hx1
          (by rw [setActiveBuffer_dirty_x_min]; exact hwf)]
        rw [dirtyD_setActiveBuffer]
        rw [bboxFold_rectPoints (dirtyD ctx) x1 y1 w1 h1 (by omega) (by omega)]
  | draw_line x0 y0 x1 y1 c =>
    exact drawPoints_spec (linePoints x0 y0 x1 y1) ctx c hen hwf
  | draw_circle x y r c =>
    exact drawPoints_spec (circlePoints x y r) ctx c hen hwf
  | draw_text x y t c =>
    exact drawPoints_spec (textSteps x x y t) ctx c hen hwf
  | copy_buffer s x y w h =>
    obtain ⟨B, hB⟩ := copy_shape ctx s x y w h
    rw [show applyOp ctx (DrawOp.copy_buffer s x y w h) =
      (rpi_display_copy_buffer ctx s x y w h).2 from rfl, hB]
    rcases hcl : clipRect ctx.width ctx.height x y w h with ⟨x1, y1, w1, h1⟩
    dsimp only
    have how : opWrites ctx (DrawOp.copy_buffer s x y w h) =
        if w1 ≤ 0 ∨ h1 ≤ 0 then [] else rectPoints x1 y1 w1.toNat h1.toNat := by
      unfold opWrites
      dsimp only
      rw [hcl]
    by_cases hdeg : w1 ≤ 0 ∨ h1 ≤ 0
    · rw [if_pos hdeg, how, if_pos hdeg]
      exact ⟨rfl, rfl, hen, rfl⟩
    · rw [if_neg hdeg, how, if_neg hdeg]
      have hx1 : 0 ≤ x1 := by
        have := (clipRect_nonneg ctx.width ctx.height x y w h).1
        rw [hcl] at this
        exact this
      refine ⟨?_, ?_, ?_, ?_⟩
      · rw [mark_dirty_rect_width, setActiveBuffer_width]
      · rw [mark_dirty_rect_height, setActiveBuffer_height]
      · rw [mark_dirty_rect_enabled, setActiveBuffer_enabled, hen]
      · rw [dirtyD_mark _ _ _ _ _ (by rw [setActiveBuffer_enabled]; exact hen) hx1
          (by rw [setActiveBuffer_dirty_x_min]; exact hwf)]
        rw [dirtyD_setActiveBuffer]
        rw [bboxFold_rectPoints (dirtyD ctx) x1 y1 w1 h1 (by omega) (by omega)]

/-- A whole sequence of drawing calls: the dirty region after the sequence
is the fold of every written coordinate (in write order) into the region
before. -/
theorem applyOps_spec (ops : List DrawOp) :
    ∀ ctx : Ili9486lCtx,
      ctx.dirty_rect_enabled = true →
      (ctx.dirty_x_min = -1 ∨ 0 ≤ ctx.dirty_x_min) →
      1 ≤ ctx.width → 1 ≤ ctx.height →
      (applyOps ctx ops).width = ctx.width ∧
      (applyOps ctx ops).height = ctx.height ∧
      (applyOps ctx ops).dirty_rect_enabled = true ∧
      dirtyD (applyOps ctx ops) = bboxFold (dirtyD ctx) (writesOf ctx ops) := by
  induction ops with
  | nil =>
    intro ctx hen _ _ _
    exact ⟨rfl, rfl, hen, rfl⟩
  | cons op t ih =>
    intro ctx hen hwf hW hH
    obtain ⟨hw1, hh1, hen1, hd1⟩ := op_step ctx op hen hwf hW hH
    have hwf1 : (applyOp ctx op).dirty_x_min = -1 ∨ 0 ≤ (applyOp ctx op).dirty_x_min := by
      cases hr : dirtyD (applyOp ctx op) with
      | none => exact Or.inl (dirty_x_min_of_none _ hr)
      | some r =>
        right
        rw [dirty_x_min_of_some _ r hr]
        rw [hd1] at hr
        exact bboxFold_xmin_nonneg (opWrites ctx op) (dirtyD ctx) (seed_nonneg ctx hwf)
          (opWrites_nonneg ctx op) r hr
    obtain ⟨hw2, hh2, hen2, hd2⟩ := ih (applyOp ctx op) hen1 hwf1
      (by rw [hw1]; exact hW) (by rw [hh1]; exact hH)
    rw [show applyOps ctx (op :: t) = applyOps (applyOp ctx op) t from rfl]
    refine ⟨by rw [hw2, hw1], by rw [hh2, hh1], hen2, ?_⟩
    rw [hd2, hd1]
    rw [show writesOf ctx (op :: t) = opWrites ctx op ++ writesOf (applyOp ctx op) t from rfl]
    rw [bboxFold_append]

/-- C4: for every sequence of drawing calls (clear, set_pixel, fill_rect,
draw_line, draw_circle, draw_text, copy_buffer) applied to a freshly
initialized display, the dirty region after the sequence is the empty
sentinel if and only if no pixel coordinate was written, and when it is
non-empty it is the minimal axis-aligned bounding box of all pixel
coordinates actually written: it covers every written coordinate, and it is
contained in every rectangle that covers all of them. -/
theorem dirty_region_minimal_bbox (dbe : Bool) (fb bb : Nat → Nat) (ops : List DrawOp) :
    (dirtyD (applyOps (initCtx dbe fb bb) ops) = none ↔
      writesOf (initCtx dbe fb bb) ops = []) ∧
    ∀ r, dirtyD (applyOps (initCtx dbe fb bb) ops) = some r →
      (∀ p ∈ writesOf (initCtx dbe fb bb) ops,
        r.x_min ≤ p.1 ∧ p.1 ≤ r.x_max ∧ r.y_min ≤ p.2 ∧ p.2 ≤ r.y_max) ∧
      ∀ q : DirtyRect,
        (∀ p ∈ writesOf (initCtx dbe fb bb) ops,
          q.x_min ≤ p.1 ∧ p.1 ≤ q.x_max ∧ q.y_min ≤ p.2 ∧ p.2 ≤ q.y_max) →
        q.x_min ≤ r.x_min ∧ q.y_min ≤ r.y_min ∧ r.x_max ≤ q.x_max ∧ r.y_max ≤ q.y_max := by
  have hd := (applyOps_spec ops (initCtx dbe fb bb) rfl (Or.inl rfl)
    (by norm_num [initCtx, DISPLAY_WIDTH]) (by norm_num [initCtx, DISPLAY_HEIGHT])).2.2.2
  have h0 : dirtyD (initCtx dbe fb bb) = none := rfl
  rw [h0] at hd
  constructor
  · rw [hd]
    exact bboxFold_none_iff _
  · intro r hr
    rw [hd] at hr
    refine ⟨bboxFold_covers _ none r hr, ?_⟩
    intro q hq
    obtain ⟨hx, hy, hX, hY⟩ := bboxFold_attained _ none r hr
    refine ⟨?_, ?_, ?_, ?_⟩
    · rcases hx with ⟨s, hs, _⟩ | ⟨p, hp, he⟩
      · cases hs
      · rw [he]
        exact (hq p hp).1
    · rcases hy with ⟨s, hs, _⟩ | ⟨p, hp, he⟩
      · cases hs
      · rw [he]
        exact (hq p hp).2.2.1
    · rcases hX with ⟨s, hs, _⟩ | ⟨p, hp, he⟩
      · cases hs
      · rw [he]
        exact (hq p hp).2.1
    · rcases hY with ⟨s, hs, _⟩ | ⟨p, hp, he⟩
      · cases hs
      · rw [he]
        exact (hq p hp).2.2.2

theorem dirty_region_minimal_bbox_witness :
    dirtyD (applyOps (initCtx false (fun _ => 0) (fun _ => 0))
        [DrawOp.set_pixel 3 4 9, DrawOp.fill_rect 1 1 2 2 5]) =
      some ⟨1, 1, 3, 4⟩ ∧
    ∀ p ∈ writesOf (initCtx false (fun _ => 0) (fun _ => 0))
        [DrawOp.set_pixel 3 4 9, DrawOp.fill_rect 1 1 2 2 5],
      (1 : Int) ≤ p.1 ∧ p.1 ≤ 3 ∧ (1 : Int) ≤ p.2 ∧ p.2 ≤ 4 :=
  have h := dirty_region_minimal_bbox false (fun _ => 0) (fun _ => 0)
    [DrawOp.set_pixel 3 4 9, DrawOp.fill_rect 1 1 2 2 5]
  have hr : dirtyD (applyOps (initCtx false (fun _ => 0) (fun _ => 0))
      [DrawOp.set_pixel 3 4 9, DrawOp.fill_rect 1 1 2 2 5]) = some ⟨1, 1, 3, 4⟩ := by
    decide
  ⟨hr, fun p hp => (h.2 ⟨1, 1, 3, 4⟩ hr).1 p hp⟩

end RpiDisplay
